import Mathlib

/-!
# Code-Checker: the judge back end (`src/backend/judge.cpp`, `judge_parallel.cpp`)

A shallow embedding of the tolerant comparator (`trim`, `compare_files`), of the
per-task pipeline (`run_program`, `read_file`, `save_files`, `judge`), of `json_escape`,
of the aggregator of `main`, and of the comparator of the parallel-only binary
(`trim_trailing`, `compare_outputs`), with the properties of the specification that were
checked against them.

Conventions.
* A C++ `std::string` holding file bytes is a `List Char`; every `Char` stands for one byte.
* A file that may fail to open is an `Option (List Char)` (`none`: the open fails).
* An `std::ifstream` is its unread characters together with `eofbit` and `failbit`.
* Results of operating-system calls (process creation, waiting, exit codes, `system`)
  are inputs of the model, collected in `RunEnv` and `JudgeEnv`.
-/

set_option autoImplicit false

namespace CodeChecker

/-! ## Input streams and `std::getline` -/

/-- An `std::ifstream`: the characters not yet extracted and the two state bits that the
comparator can observe (`badbit` is never set by the operations used). -/
structure ifstream where
  buf : List Char
  eofbit : Bool
  failbit : Bool
deriving DecidableEq, Repr

/-- The constructor `ifstream a(f)`: `failbit` is set when the file cannot be opened. -/
def ifstream.open : Option (List Char) → ifstream
  | none => { buf := [], eofbit := false, failbit := true }
  | some c => { buf := c, eofbit := false, failbit := false }

/-- The conversion `operator bool` of a stream: `!fail()`. -/
def ifstream.ok (s : ifstream) : Bool := !s.failbit

/-- The member `good()`: no state bit is set. -/
def ifstream.good (s : ifstream) : Bool := !s.eofbit && !s.failbit

/-- The extraction loop of `std::getline`: characters are taken up to the first `'\n'`.
The second component is `some rest` when the delimiter was found (it is consumed and not
stored) and `none` when the end of the file was reached first. -/
def readline : List Char → List Char × Option (List Char)
  | [] => ([], none)
  | c :: cs =>
    if c = '\n' then ([], some cs)
    else ((c :: (readline cs).1), (readline cs).2)

/-- The call `std::getline(is, str)`. When the sentry fails (the stream is not `good()`),
`failbit` is set and `str` is left as it was. Otherwise `str` is erased and filled with
the next line; reaching the end of the file sets `eofbit`, and extracting no character at
all (not even a delimiter) sets `failbit`. Returns the new stream and the new `str`. -/
def getline (is : ifstream) (str : List Char) : ifstream × List Char :=
  if is.good then
    match readline is.buf with
    | (line, some rest) => ({ buf := rest, eofbit := false, failbit := false }, line)
    | (line, none) => ({ buf := [], eofbit := true, failbit := line.isEmpty }, line)
  else
    ({ is with failbit := true }, str)

/-! ## The comparator of `judge.cpp` -/

/-- The character set `" \t\r\n"` of `trim`. -/
def trim_set : List Char := [' ', '\t', '\r', '\n']

/-- The member `s.find_last_not_of(set)`: the largest index whose character is not in
`set`, or `none` (for `string::npos`). -/
def find_last_not_of (set : List Char) : List Char → Option Nat
  | [] => none
  | c :: cs =>
    match find_last_not_of set cs with
    | some i => some (i + 1)
    | none => if c ∈ set then none else some 0

/-- The function `trim` of `judge.cpp`: the argument up to its last character outside
`" \t\r\n"`, or the empty string. -/
def trim (s : List Char) : List Char :=
  match find_last_not_of trim_set s with
  | none => []
  | some e => s.take (e + 1)

/-- The local variables of `compare_files`: the two streams and the two line buffers. -/
structure CmpState where
  a : ifstream
  b : ifstream
  l1 : List Char
  l2 : List Char
deriving DecidableEq, Repr

/-- The loop `while (getline(a, l1) && getline(b, l2)) if (trim(l1) != trim(l2)) return false;`.
The result is `none` when the fuel runs out, `some (Sum.inl r)` when the body executes
`return r`, and `some (Sum.inr s)` when the loop condition fails in state `s`. The second
`getline` is not evaluated when the first one fails. -/
def while_pairs : Nat → CmpState → Option (Bool ⊕ CmpState)
  | 0, _ => none
  | fuel + 1, s =>
    let ra := getline s.a s.l1
    if ra.1.ok then
      let rb := getline s.b s.l2
      if rb.1.ok then
        if trim ra.2 ≠ trim rb.2 then some (Sum.inl false)
        else while_pairs fuel { a := ra.1, b := rb.1, l1 := ra.2, l2 := rb.2 }
      else some (Sum.inr { a := ra.1, b := rb.1, l1 := ra.2, l2 := rb.2 })
    else some (Sum.inr { a := ra.1, b := s.b, l1 := ra.2, l2 := s.l2 })

/-- The loops `do { if (trim(l) != "") return false; } while (getline(s, l));` that
`compare_files` runs first on `(a, l1)` and then on `(b, l2)`. The result is `none` when
the fuel runs out, `some (Sum.inl false)` for `return false`, and `some (Sum.inr (s, l))`
when the loop ends normally. -/
def do_while_blank : Nat → ifstream → List Char → Option (Bool ⊕ (ifstream × List Char))
  | 0, _, _ => none
  | fuel + 1, s, l =>
    if trim l ≠ [] then some (Sum.inl false)
    else
      let r := getline s l
      if r.1.ok then do_while_blank fuel r.1 r.2
      else some (Sum.inr r)

/-- The body of the final `if` of `compare_files`: both `do`-`while` loops, then
`return true`. -/
def compare_tail (a b : ifstream) (l1 l2 : List Char) : Option Bool :=
  match do_while_blank (a.buf.length + 1) a l1 with
  | none => none
  | some (Sum.inl r) => some r
  | some (Sum.inr _) =>
    match do_while_blank (b.buf.length + 1) b l2 with
    | none => none
    | some (Sum.inl r) => some r
    | some (Sum.inr _) => some true

/-- The function `compare_files` run with loop fuel: `none` only if a loop runs out of
fuel (which is proved not to happen). Each loop receives one unit of fuel more
than the number of unread characters of the stream it reads. -/
def compare_files_run (f1 f2 : Option (List Char)) : Option Bool :=
  let a := ifstream.open f1
  let b := ifstream.open f2
  if !a.ok || !b.ok then some false
  else
    match while_pairs (a.buf.length + 1) { a := a, b := b, l1 := [], l2 := [] } with
    | none => none
    | some (Sum.inl r) => some r
    | some (Sum.inr s) =>
      let ra := getline s.a s.l1
      if ra.1.ok then compare_tail ra.1 s.b ra.2 s.l2
      else
        let rb := getline s.b s.l2
        if rb.1.ok then compare_tail ra.1 rb.1 ra.2 rb.2
        else some true

/-- The function `compare_files` of `judge.cpp` on the contents of its two files. -/
def compare_files (f1 f2 : Option (List Char)) : Bool :=
  (compare_files_run f1 f2).getD false

/-! ## Verdicts, results and the helpers of the pipeline -/

/-- The enumeration `ErrorType` of `judge.cpp`. -/
inductive ErrorType where
  | AC | WA | RE | TLE | MLE | CE | UKE
deriving DecidableEq, Repr

/-- The structure `JudgeResult` of `judge.cpp`. -/
structure JudgeResult where
  id : Int
  result : String
  message : String
  std_version : String
  error_type : ErrorType
  input_data : List Char
  ans_output : List Char
  unk_output : List Char
  files_saved : Bool
  saved_path : String
deriving DecidableEq, Repr

/-- The structure `RunResult` of `judge.cpp`. -/
structure RunResult where
  exit_code : Int
  err_msg : String
deriving DecidableEq, Repr

/-- What the operating system answers during one call of `run_program`. -/
structure RunEnv where
  /-- The call of `CreateFileA` on the output file returned a valid handle. -/
  out_created : Bool
  /-- The call of `CreateFileA` on the input file returned a valid handle (consulted only
  when an input file is named). -/
  in_opened : Bool
  /-- The call of `CreateProcessA` succeeded. -/
  created : Bool
  /-- The call of `WaitForSingleObject` returned `WAIT_TIMEOUT`. -/
  timed_out : Bool
  /-- The `DWORD` stored by `GetExitCodeProcess`. -/
  code : Nat
deriving DecidableEq, Repr

/-- The function `run_program` of `judge.cpp`, as a function of the answers of the
operating system. `in_file` is its parameter of that name; the other parameters only
reach the operating system. -/
def run_program (in_file : String) (env : RunEnv) : RunResult :=
  if !env.out_created then { exit_code := -1, err_msg := "Cannot create output" }
  else if !in_file.isEmpty && !env.in_opened then
    { exit_code := -1, err_msg := "Cannot open input" }
  else if !env.created then { exit_code := -1, err_msg := "Failed to start process" }
  else if env.timed_out then { exit_code := -2, err_msg := "Time Limit Exceeded" }
  else if env.code = 0 then { exit_code := 0, err_msg := "" }
  else if env.code = 0xC0000017 ∨ env.code = 0xC0000005 then
    { exit_code := -3, err_msg := "Memory Limit" }
  else { exit_code := -1, err_msg := "Runtime Error code=" ++ toString env.code }

/-- The function `compile` of `judge.cpp`: `ret` is the value returned by
`system("g++ ...")`. -/
def compile (ret : Int) : Bool :=
  if ret ≠ 0 then false else true

/-- The default value of the parameter `max` of `read_file`. -/
def read_file_max : Nat := 100000

/-- The function `read_file` of `judge.cpp` on the content of the file (`none` when it
cannot be opened): at most `max` bytes are read, and when the read position then exceeds
10000 the string is cut to 10000 characters and the marker is appended. -/
def read_file (f : Option (List Char)) (max : Nat) : List Char :=
  match f with
  | none => []
  | some c =>
    let size := min max c.length
    let s := c.take size
    if size > 10000 then s.take 10000 ++ "\n...(truncated)".toList else s

/-- The calls that `judge` makes on the filesystem, on processes and on the task log, in
the order in which they happen, and the line that `create_task_dir` writes to standard
error when it fails. (The copy of every log message that `Logger::log` sends to standard
error is not recorded.) -/
inductive Event where
  /-- The call `_mkdir(dir)` of `create_task_dir`. -/
  | mkdir (dir : String)
  /-- A line written to `cerr` by `create_task_dir`. -/
  | cerr (msg : String)
  /-- The call `exit(code)`. -/
  | exit (code : Int)
  /-- The constructor of `Logger`: the log file is opened and the start banner written. -/
  | log_open (path : String)
  /-- A message written to the open log file. -/
  | log (msg : String)
  /-- The destructor of `Logger` closing the log file. -/
  | log_close (path : String)
  /-- A call of `copy_file_safe` with the given destination. -/
  | copy_file (dst : String)
  /-- A call of `compile` for the given program. -/
  | compile (exe : String)
  /-- A call of `run_program` for the given program. -/
  | run (prog : String)
  /-- A call of `read_file`. -/
  | read_file (path : String)
  /-- A call of `compare_files`. -/
  | compare_files (f1 f2 : String)
  /-- A call of `save_files` that got past its guard and wrote into directory `d`. -/
  | save_files (d : String)
  /-- A call of `remove_directory`. -/
  | remove_directory (dir : String)
deriving DecidableEq, Repr

/-- What the environment answers during one call of `judge`. An environment describes a
call in which every request to the operating system is answered. -/
structure JudgeEnv where
  /-- The directory name built by `create_task_dir`. -/
  dir : String
  /-- After `_mkdir`, `_access(dir, 0)` is not `-1`. -/
  dir_created : Bool
  /-- After the constructor of `Logger`, `log_file.is_open()` holds. -/
  log_opened : Bool
  /-- The values returned by the three calls of `copy_file_safe`. -/
  copy_make : Bool
  copy_ans : Bool
  copy_unk : Bool
  /-- The values returned by `system` for the three compiler commands. -/
  ret_make : Int
  ret_ans : Int
  ret_unk : Int
  /-- The answers of the operating system in the three calls of `run_program`. -/
  run_make : RunEnv
  run_ans : RunEnv
  run_unk : RunEnv
  /-- The contents of `data.in`, `data.ans` and `data.out` when they are read. -/
  data_in : Option (List Char)
  data_ans : Option (List Char)
  data_out : Option (List Char)
deriving DecidableEq, Repr

/-- How a call of `judge` ends: the process exits, or the call returns a result. -/
inductive JudgeOutcome where
  | exited (code : Int)
  | returned (res : JudgeResult)
deriving DecidableEq, Repr

/-- A call of `judge`: how it ends and what it did. -/
structure JudgeRun where
  outcome : JudgeOutcome
  trace : List Event
deriving DecidableEq, Repr

/-- The member `log_path` of the `Logger` of a task. -/
def log_path (dir : String) (id : Int) : String :=
  dir ++ "\\task_" ++ toString id ++ "_log.txt"

/-- The condition `!copy_file_safe(make, ..) || !copy_file_safe(ans, ..) ||
!copy_file_safe(unk, ..)` of `judge`, evaluated from left to right: whether all copies
succeeded, and the calls made. -/
def stage_copies (env : JudgeEnv) : Bool × List Event :=
  if !env.copy_make then (false, [Event.copy_file (env.dir ++ "\\make.cpp")])
  else if !env.copy_ans then
    (false, [Event.copy_file (env.dir ++ "\\make.cpp"), Event.copy_file (env.dir ++ "\\ans.cpp")])
  else
    (env.copy_unk, [Event.copy_file (env.dir ++ "\\make.cpp"),
      Event.copy_file (env.dir ++ "\\ans.cpp"), Event.copy_file (env.dir ++ "\\unknown.cpp")])

/-- The function `save_files` of `judge.cpp`: its return value and the call recorded
when the guard `save.empty()` does not return early. -/
def save_files (save : String) (id : Int) : Bool × List Event :=
  if save.isEmpty then (false, [])
  else (true, [Event.save_files (save ++ "\\task_" ++ toString id)])

/-- The constructor of `Logger`: the log file is opened in append mode; when that
succeeds the file stays open and receives the start banner. -/
def logger_open (opened : Bool) (path : String) : List Event :=
  if opened then [Event.log_open path] else []

/-- The member `Logger::log`: the message goes to the log file when it is open (and to
standard error in any case). -/
def logger_log (opened : Bool) (msg : String) : List Event :=
  if opened then [Event.log msg] else []

/-- The destructor of `Logger`: when the log file is open, the end banner is written to it
and it is closed. -/
def logger_close (opened : Bool) (path : String) : List Event :=
  if opened then [Event.log "=== End ===", Event.log_close path] else []

/-- The statements `remove_directory(dir); return res;` that end `judge`, followed by the
destructor of the local `Logger`, which runs when the function is left. -/
def judge_return (dir : String) (id : Int) (opened : Bool) (t : List Event)
    (res : JudgeResult) : JudgeRun :=
  { outcome := JudgeOutcome.returned res,
    trace := t ++ [Event.remove_directory dir] ++ logger_close opened (log_path dir id) }

/-- The classification of the candidate run in `judge` (the chain of `if`s on
`r3.exit_code`); `equal` is the value of `compare_files`, used on exit code 0 only. -/
def judge_classify (id : Int) (std_v : String) (data_in ans_out unk_out : List Char)
    (r3 : RunResult) (equal : Bool) : JudgeResult :=
  if r3.exit_code = -2 then
    { id := id, result := "TLE", message := "Time Limit Exceeded", std_version := std_v,
      error_type := ErrorType.TLE, input_data := data_in, ans_output := ans_out,
      unk_output := unk_out, files_saved := false, saved_path := "" }
  else if r3.exit_code = -3 then
    { id := id, result := "MLE", message := "Memory Limit Exceeded", std_version := std_v,
      error_type := ErrorType.MLE, input_data := data_in, ans_output := ans_out,
      unk_output := unk_out, files_saved := false, saved_path := "" }
  else if r3.exit_code ≠ 0 then
    { id := id, result := "RE", message := "Runtime Error", std_version := std_v,
      error_type := ErrorType.RE, input_data := data_in, ans_output := ans_out,
      unk_output := unk_out, files_saved := false, saved_path := "" }
  else if equal then
    { id := id, result := "AC", message := "Accepted", std_version := std_v,
      error_type := ErrorType.AC, input_data := data_in, ans_output := ans_out,
      unk_output := unk_out, files_saved := false, saved_path := "" }
  else
    { id := id, result := "WA", message := "Wrong Answer", std_version := std_v,
      error_type := ErrorType.WA, input_data := data_in, ans_output := ans_out,
      unk_output := unk_out, files_saved := false, saved_path := "" }

/-- The archival step of `judge`:
`if (res.error_type != AC) if (save_files(..)) { res.files_saved = true; res.saved_path = ..; }`.
Returns the result and the calls made. -/
def judge_archive (save : String) (id : Int) (res : JudgeResult) : JudgeResult × List Event :=
  if res.error_type ≠ ErrorType.AC then
    if (save_files save id).1 then
      ({ res with files_saved := true, saved_path := save ++ "\\task_" ++ toString id },
        (save_files save id).2)
    else (res, (save_files save id).2)
  else (res, [])

/-- A result built by one of the early returns of `judge` and by its `catch` block: no
data and no archive. -/
def early_result (id : Int) (result message std_v : String) (e : ErrorType)
    (data_in : List Char) : JudgeResult :=
  { id := id, result := result, message := message, std_version := std_v, error_type := e,
    input_data := data_in, ans_output := [], unk_output := [], files_saved := false,
    saved_path := "" }

/-- The function `judge` of `judge.cpp`. The parameters `make`, `ans`, `unk`, `time_ms`
and `mem_mb` only reach the environment, whose answers are in `env`. When
`create_task_dir` cannot create the directory it writes the cause to standard error and
calls `exit(1)`, and `judge` does not return. A failed copy throws
`runtime_error("Copy failed")`, which the `catch` block
turns into a result. -/
def judge (id : Int) (std_v save : String) (env : JudgeEnv) : JudgeRun :=
  if !env.dir_created then
    { outcome := JudgeOutcome.exited 1,
      trace := [Event.mkdir env.dir, Event.cerr ("Failed to create: " ++ env.dir),
        Event.exit 1] }
  else
    let dir := env.dir
    let opened := env.log_opened
    let t0 := [Event.mkdir dir] ++ logger_open opened (log_path dir id) ++
      logger_log opened ("Judge start in " ++ dir) ++ (stage_copies env).2
    if !(stage_copies env).1 then
      judge_return dir id opened (t0 ++ logger_log opened ("Exception: " ++ "Copy failed"))
        (early_result id "UKE" ("Exception: " ++ "Copy failed") std_v ErrorType.UKE [])
    else if !compile env.ret_make then
      judge_return dir id opened (t0 ++ [Event.compile "make"])
        (early_result id "CE" "make.cpp compile error" std_v ErrorType.CE [])
    else if !compile env.ret_ans then
      judge_return dir id opened (t0 ++ [Event.compile "make", Event.compile "ans"])
        (early_result id "CE" "ans.cpp compile error" std_v ErrorType.CE [])
    else if !compile env.ret_unk then
      judge_return dir id opened
        (t0 ++ [Event.compile "make", Event.compile "ans", Event.compile "unknown"])
        (early_result id "CE" "unknown.cpp compile error" std_v ErrorType.CE [])
    else
      let t1 := t0 ++ [Event.compile "make", Event.compile "ans", Event.compile "unknown",
        Event.run "make"]
      let r1 := run_program "" env.run_make
      if r1.exit_code ≠ 0 then
        judge_return dir id opened t1
          (early_result id "UKE" ("make failed: " ++ r1.err_msg) std_v ErrorType.UKE [])
      else
        let data_in := read_file env.data_in read_file_max
        let t2 := t1 ++ [Event.read_file (dir ++ "\\data.in"), Event.run "ans"]
        let r2 := run_program "data.in" env.run_ans
        if r2.exit_code ≠ 0 then
          judge_return dir id opened t2
            (early_result id "UKE" ("ans failed: " ++ r2.err_msg) std_v ErrorType.UKE data_in)
        else
          let r3 := run_program "data.in" env.run_unk
          let ans_out := read_file env.data_ans read_file_max
          let unk_out := read_file env.data_out read_file_max
          let t3 := t2 ++ [Event.run "unknown", Event.read_file (dir ++ "\\data.ans"),
            Event.read_file (dir ++ "\\data.out")] ++
            (if r3.exit_code = 0 then
              [Event.compare_files (dir ++ "\\data.ans") (dir ++ "\\data.out")] else [])
          let res := judge_classify id std_v data_in ans_out unk_out r3
            (compare_files env.data_ans env.data_out)
          let ar := judge_archive save id res
          judge_return dir id opened (t3 ++ ar.2) ar.1

/-! ## The specification, in its own words -/

/-- The line sequence of a file as successive calls of `std::getline` deliver it: the
characters are split at every `'\n'`, and a last line needs no `'\n'`. `cur` holds the
characters of the current line in reverse order. -/
def spec_lines_from (cur : List Char) : List Char → List (List Char)
  | [] => if cur.isEmpty then [] else [cur.reverse]
  | c :: cs =>
    if c = '\n' then cur.reverse :: spec_lines_from [] cs
    else spec_lines_from (c :: cur) cs

/-- The line sequence of a file. -/
def spec_lines (f : List Char) : List (List Char) := spec_lines_from [] f

/-- Stripping trailing `' '`, `'\t'`, `'\r'`, `'\n'` from a line. -/
def spec_strip (line : List Char) : List Char :=
  (line.reverse.dropWhile (fun c => c = ' ' ∨ c = '\t' ∨ c = '\r' ∨ c = '\n')).reverse

/-- Discarding the trailing empty lines of a sequence. -/
def spec_drop_trailing_empty (ls : List (List Char)) : List (List Char) :=
  (ls.reverse.dropWhile (fun l => l.isEmpty)).reverse

/-- The normal form of a file under the tolerant comparison of the specification. -/
def spec_normalise (f : List Char) : List (List Char) :=
  spec_drop_trailing_empty ((spec_lines f).map spec_strip)

/-- Equality of two files under the tolerant comparison of the specification. -/
def spec_equal (f g : List Char) : Bool :=
  decide (spec_normalise f = spec_normalise g)

/-- The outcome of a bounded process execution, as the specification names it. -/
inductive SpecOutcome where
  | Timeout
  | Exited (code : Nat)
  | SpawnFailed
deriving DecidableEq, Repr

/-- The stage outcomes on which the state machine of the specification branches. -/
structure StageOutcomes where
  copy_ok : Bool
  make_compiles : Bool
  ans_compiles : Bool
  unk_compiles : Bool
  gen : SpecOutcome
  ref : SpecOutcome
  cand : SpecOutcome
  equal : Bool
deriving DecidableEq, Repr

/-- The states of the per-task pipeline of the specification. -/
inductive PipeState where
  | START | STAGE_COPY | COMPILE_MAKE | COMPILE_ANS | COMPILE_UNK
  | RUN_MAKE | RUN_ANS | RUN_UNK | COMPARE
  | DONE (v : ErrorType)
deriving DecidableEq, Repr

/-- The memory-class exit codes: commit limit reached and access violation. -/
def spec_memory_code (code : Nat) : Bool :=
  code = 0xC0000017 || code = 0xC0000005

/-- One transition of the state machine of the specification. -/
def spec_step (o : StageOutcomes) : PipeState → PipeState
  | PipeState.START => PipeState.STAGE_COPY
  | PipeState.STAGE_COPY =>
    if o.copy_ok then PipeState.COMPILE_MAKE else PipeState.DONE ErrorType.UKE
  | PipeState.COMPILE_MAKE =>
    if o.make_compiles then PipeState.COMPILE_ANS else PipeState.DONE ErrorType.CE
  | PipeState.COMPILE_ANS =>
    if o.ans_compiles then PipeState.COMPILE_UNK else PipeState.DONE ErrorType.CE
  | PipeState.COMPILE_UNK =>
    if o.unk_compiles then PipeState.RUN_MAKE else PipeState.DONE ErrorType.CE
  | PipeState.RUN_MAKE =>
    if o.gen = SpecOutcome.Exited 0 then PipeState.RUN_ANS else PipeState.DONE ErrorType.UKE
  | PipeState.RUN_ANS =>
    if o.ref = SpecOutcome.Exited 0 then PipeState.RUN_UNK else PipeState.DONE ErrorType.UKE
  | PipeState.RUN_UNK =>
    match o.cand with
    | SpecOutcome.Timeout => PipeState.DONE ErrorType.TLE
    | SpecOutcome.Exited code =>
      if code = 0 then PipeState.COMPARE
      else if spec_memory_code code then PipeState.DONE ErrorType.MLE
      else PipeState.DONE ErrorType.RE
    | SpecOutcome.SpawnFailed => PipeState.DONE ErrorType.UKE
  | PipeState.COMPARE =>
    if o.equal then PipeState.DONE ErrorType.AC else PipeState.DONE ErrorType.WA
  | PipeState.DONE v => PipeState.DONE v

/-- The terminal reached by the state machine from `START`; nine transitions reach a
terminal on every path. -/
def spec_verdict (o : StageOutcomes) : PipeState :=
  (spec_step o)^[9] PipeState.START

/-- The outcome of a run in the words of the specification. -/
def spec_outcome (in_file : String) (env : RunEnv) : SpecOutcome :=
  if !env.out_created || (!in_file.isEmpty && !env.in_opened) || !env.created then
    SpecOutcome.SpawnFailed
  else if env.timed_out then SpecOutcome.Timeout
  else SpecOutcome.Exited env.code

/-- The stage outcomes that an environment of `judge` produces. -/
def stage_outcomes (env : JudgeEnv) : StageOutcomes :=
  { copy_ok := env.copy_make && env.copy_ans && env.copy_unk,
    make_compiles := decide (env.ret_make = 0),
    ans_compiles := decide (env.ret_ans = 0),
    unk_compiles := decide (env.ret_unk = 0),
    gen := spec_outcome "" env.run_make,
    ref := spec_outcome "data.in" env.run_ans,
    cand := spec_outcome "data.in" env.run_unk,
    equal := compare_files env.data_ans env.data_out }

/-- The printed name of a verdict. -/
def ErrorType.name : ErrorType → String
  | ErrorType.AC => "AC"
  | ErrorType.WA => "WA"
  | ErrorType.RE => "RE"
  | ErrorType.TLE => "TLE"
  | ErrorType.MLE => "MLE"
  | ErrorType.CE => "CE"
  | ErrorType.UKE => "UKE"

/-- An environment in which every step succeeds: all copies and compiles succeed, every
program exits with code 0, and the outputs are the given contents. -/
def env_ok (ans out : List Char) : JudgeEnv :=
  { dir := "T\\judge_0_1_abcdefgh", dir_created := true, log_opened := true,
    copy_make := true, copy_ans := true, copy_unk := true,
    ret_make := 0, ret_ans := 0, ret_unk := 0,
    run_make := { out_created := true, in_opened := true, created := true,
                  timed_out := false, code := 0 },
    run_ans := { out_created := true, in_opened := true, created := true,
                 timed_out := false, code := 0 },
    run_unk := { out_created := true, in_opened := true, created := true,
                 timed_out := false, code := 0 },
    data_in := some "5\n".toList, data_ans := some ans, data_out := some out }

/-- The environment `env_ok` with a candidate that exits with the access violation
code. -/
def env_unk_mle : JudgeEnv :=
  { env_ok "5\n".toList [] with
    run_unk := { out_created := true, in_opened := true, created := true,
                 timed_out := false, code := 0xC0000005 } }

/-- The environment `env_ok` in which `CreateProcessA` fails for the candidate. -/
def env_unk_spawn_fails : JudgeEnv :=
  { env_ok "5\n".toList [] with
    run_unk := { out_created := true, in_opened := true, created := false,
                 timed_out := false, code := 0 } }

/-- An environment in which the isolation directory cannot be created. -/
def env_no_dir : JudgeEnv :=
  { env_ok "5\n".toList "5\n".toList with dir_created := false }

/-- The environment `env_ok` in which the compiler rejects `make.cpp`. -/
def env_make_ce : JudgeEnv :=
  { env_ok "5\n".toList "5\n".toList with ret_make := 1 }

/-- The result of the run `env_ok "5\n" "6\n"` for task 0 with the archive root `arch`:
a wrong answer whose files were saved. -/
def res_wa_saved : JudgeResult :=
  { id := 0, result := "WA", message := "Wrong Answer", std_version := "c++17",
    error_type := ErrorType.WA, input_data := "5\n".toList, ans_output := "5\n".toList,
    unk_output := "6\n".toList, files_saved := true, saved_path := "arch\\task_0" }

/-- The result of the run `env_ok "5" "5"` for task 0 without archive root: accepted. -/
def res_ac_five : JudgeResult :=
  { id := 0, result := "AC", message := "Accepted", std_version := "c++17",
    error_type := ErrorType.AC, input_data := "5\n".toList, ans_output := "5".toList,
    unk_output := "5".toList, files_saved := false, saved_path := "" }

/-! ## JSON escaping -/

/-- The value of a `char` that holds the byte `c`; `char` is a signed 8-bit type on the
target of the sources, so the bytes from `0x80` on are negative. (With an unsigned `char`
the test of `json_escape` on this value has the same outcome on every byte.) -/
def char_value (c : Char) : Int :=
  if c.toNat % 256 < 128 then ((c.toNat % 256 : Nat) : Int)
  else ((c.toNat % 256 : Nat) : Int) - 256

/-- The body of the `switch` of `json_escape`: what is appended to the output for the
character `c`. -/
def json_escape_char (c : Char) : List Char :=
  if c = '"' then ['\\', '"']
  else if c = '\\' then ['\\', '\\']
  else if c = '\n' then ['\\', 'n']
  else if c = '\r' then ['\\', 'r']
  else if c = '\t' then ['\\', 't']
  else if 0x20 ≤ char_value c ∧ char_value c ≤ 0x7E then [c]
  else [' ']

/-- The function `json_escape`, which `judge.cpp` and `judge_parallel.cpp` define with the
same text: the loop `for (char c : s)` appends to the output `o`. -/
def json_escape (s : List Char) : List Char :=
  s.foldl (fun o c => o ++ json_escape_char c) []

/-- The character that a two-character escape of JSON stands for, for the character that
follows the backslash. -/
def spec_escape_target (e : Char) : Option Char :=
  if e = '"' then some '"'
  else if e = '\\' then some '\\'
  else if e = '/' then some '/'
  else if e = 'b' then some (Char.ofNat 8)
  else if e = 'f' then some (Char.ofNat 12)
  else if e = 'n' then some '\n'
  else if e = 'r' then some '\r'
  else if e = 't' then some '\t'
  else none

/-- Standard unescaping of the body of a JSON string: a backslash and the character after
it stand for one character, every other character stands for itself; the result is `none`
when the text is not a valid body (an unescaped quote or control character, a backslash
without a valid escape character). The six-character form with `u`, which `json_escape`
never writes, is not accepted. -/
def spec_json_unescape : List Char → Option (List Char)
  | [] => some []
  | [c] =>
    if c = '\\' ∨ c = '"' ∨ c.toNat < 0x20 then none else some [c]
  | c :: e :: rest =>
    if c = '\\' then
      match spec_escape_target e with
      | none => none
      | some d => (spec_json_unescape rest).map (fun r => d :: r)
    else if c = '"' ∨ c.toNat < 0x20 then none
    else (spec_json_unescape (e :: rest)).map (fun r => c :: r)

/-- What the report shows for a byte of the message: the byte itself when it is printable
ASCII, a line feed, a carriage return or a tab, and a space otherwise. -/
def spec_shown (c : Char) : Char :=
  if c = '\n' ∨ c = '\r' ∨ c = '\t' ∨ (0x20 ≤ c.toNat ∧ c.toNat ≤ 0x7E) then c else ' '

/-- The two-character escapes that `json_escape` writes. -/
def spec_escapes : List (List Char) :=
  [['\\', '"'], ['\\', '\\'], ['\\', 'n'], ['\\', 'r'], ['\\', 't']]

/-! ## The aggregator of `main` -/

/-- The integer value of an `ErrorType`, which `main` uses as the index into `cnt`. -/
def ErrorType.toNat : ErrorType → Nat
  | ErrorType.AC => 0
  | ErrorType.WA => 1
  | ErrorType.RE => 2
  | ErrorType.TLE => 3
  | ErrorType.MLE => 4
  | ErrorType.CE => 5
  | ErrorType.UKE => 6

/-- Modelled from the spec: the worker pool of `include/ThreadPool.h`, which is not among
the sources. Submitting a unit of work gives a handle that, when awaited, yields the return
value of the unit. The units complete in some order `order`; completing unit `i` stores
the value `work i` in handle `i`. The argument `handles` holds what has been stored so far
(`none`: not ready). -/
def pool_complete (work : Nat → JudgeOutcome) :
    List Nat → (Nat → Option JudgeOutcome) → (Nat → Option JudgeOutcome)
  | [], handles => handles
  | i :: rest, handles =>
    pool_complete work rest (fun j => if j = i then some (work i) else handles j)

/-- The statement `cnt[r.error_type]++` of `main` on the array `cnt`. -/
def tally (cnt : List Nat) (e : ErrorType) : List Nat :=
  cnt.set e.toNat (cnt.getD e.toNat 0 + 1)

/-- How the collection loop of `main` ends. -/
inductive Collected where
  /-- All handles were awaited: the vector `rs` and the array `cnt`. -/
  | done (rs : List JudgeResult) (cnt : List Nat)
  /-- A task called `exit(code)`: the process is gone. -/
  | exited (code : Int)
  /-- A handle never becomes ready. -/
  | blocked
deriving DecidableEq, Repr

/-- The loop `for (auto &f : futs) { auto r = f.get(); rs.push_back(r);
cnt[r.error_type]++; }` of `main` over the handles with the given indices, in that
order. -/
def collect (handles : Nat → Option JudgeOutcome) :
    List Nat → List JudgeResult → List Nat → Collected
  | [], rs, cnt => Collected.done rs cnt
  | i :: rest, rs, cnt =>
    match handles i with
    | none => Collected.blocked
    | some (JudgeOutcome.exited code) => Collected.exited code
    | some (JudgeOutcome.returned r) => collect handles rest (rs ++ [r]) (tally cnt r.error_type)

/-- The values that `main` prints in its report, in the order of printing. -/
structure Report where
  total : Nat
  ac : Nat
  wa : Nat
  re : Nat
  tle : Nat
  mle : Nat
  ce : Nat
  uke : Nat
  std_version : String
  time_limit : Int
  memory_limit : Int
  results : List JudgeResult
deriving DecidableEq, Repr

/-- How `main` ends after its arguments were accepted. -/
inductive MainOutcome where
  /-- The report was printed and `main` returned 0. -/
  | reported (rep : Report)
  /-- A task called `exit(code)` before the report was printed. -/
  | exited (code : Int)
  /-- The function `main` waits for a handle for ever. -/
  | blocked
deriving DecidableEq, Repr

/-- The function `main` of `judge.cpp` from the creation of the pool on: `k` tasks are
submitted, task `i` being `judge(i, make, ans, unk, std_v, time, mem, save)`; the handles
are awaited in the order of submission, `rs` and `cnt` are filled, and the report is
printed. `envs i` is the environment that task `i` meets and `order` the order in which
the tasks complete. -/
def main_dispatch (k : Nat) (std_v : String) (time mem : Int) (save : String)
    (envs : Nat → JudgeEnv) (order : List Nat) : MainOutcome :=
  let work := fun i : Nat => (judge (Int.ofNat i) std_v save (envs i)).outcome
  let handles := pool_complete work order (fun _ => none)
  match collect handles (List.range k) [] (List.replicate 7 0) with
  | Collected.blocked => MainOutcome.blocked
  | Collected.exited code => MainOutcome.exited code
  | Collected.done rs cnt =>
    MainOutcome.reported
      { total := k, ac := cnt.getD 0 0, wa := cnt.getD 1 0, re := cnt.getD 2 0,
        tle := cnt.getD 3 0, mle := cnt.getD 4 0, ce := cnt.getD 5 0, uke := cnt.getD 6 0,
        std_version := std_v, time_limit := time, memory_limit := mem, results := rs }

/-- Environments for three tasks: the first is accepted, the second gives a wrong answer,
the generator of the third does not compile. -/
def envs_three (i : Nat) : JudgeEnv :=
  if i = 0 then env_ok "5\n".toList "5\n".toList
  else if i = 1 then env_ok "5\n".toList "6\n".toList
  else env_make_ce

/-- The report of three tasks in the environments `envs_three` with the archive root
`arch`. -/
def report_three : Report :=
  { total := 3, ac := 1, wa := 1, re := 0, tle := 0, mle := 0, ce := 1, uke := 0,
    std_version := "c++17", time_limit := 2000, memory_limit := 512,
    results :=
      [{ id := 0, result := "AC", message := "Accepted", std_version := "c++17",
         error_type := ErrorType.AC, input_data := "5\n".toList, ans_output := "5\n".toList,
         unk_output := "5\n".toList, files_saved := false, saved_path := "" },
       { id := 1, result := "WA", message := "Wrong Answer", std_version := "c++17",
         error_type := ErrorType.WA, input_data := "5\n".toList, ans_output := "5\n".toList,
         unk_output := "6\n".toList, files_saved := true, saved_path := "arch\\task_1" },
       { id := 2, result := "CE", message := "make.cpp compile error", std_version := "c++17",
         error_type := ErrorType.CE, input_data := [], ans_output := [], unk_output := [],
         files_saved := false, saved_path := "" }] }

/-- The environment `env_ok` in which the copy of `ans.cpp` fails. -/
def env_copy_fails : JudgeEnv :=
  { env_ok "5\n".toList "5\n".toList with copy_ans := false }

/-! ## The comparator of `judge_parallel.cpp` -/

/-- The function `trim_trailing` of `judge_parallel.cpp`, whose text is that of `trim`. -/
def trim_trailing (s : List Char) : List Char :=
  match find_last_not_of trim_set s with
  | none => []
  | some e => s.take (e + 1)

/-- The loops `while (getline(file, line)) l.push_back(trim_trailing(line));` of
`compare_outputs`. The result is `none` when the fuel runs out, and otherwise the stream,
the variable `line` and the vector `l` when the loop ends. -/
def read_trimmed_lines :
    Nat → ifstream → List Char → List (List Char) →
      Option (ifstream × List Char × List (List Char))
  | 0, _, _, _ => none
  | fuel + 1, file, line, l =>
    let r := getline file line
    if r.1.ok then read_trimmed_lines fuel r.1 r.2 (l ++ [trim_trailing r.2])
    else some (r.1, r.2, l)

/-- The loops `while (!l.empty() && l.back().empty()) l.pop_back();` of
`compare_outputs`; `none` when the fuel runs out. -/
def pop_empty_back : Nat → List (List Char) → Option (List (List Char))
  | 0, _ => none
  | fuel + 1, l =>
    match l.getLast? with
    | none => some l
    | some last => if last.isEmpty then pop_empty_back fuel l.dropLast else some l

/-- The loop `for (size_t i = 0; i < l1.size(); ++i) if (l1[i] != l2[i]) { same = false;
break; }` of `compare_outputs`, entered with `same == true`: the value of `same` after the
loop, `n` being the number of indices from `i` up to `l1.size()`. -/
def lines_same (l1 l2 : List (List Char)) : Nat → Nat → Bool
  | 0, _ => true
  | n + 1, i =>
    if l1.getD i [] ≠ l2.getD i [] then false
    else lines_same l1 l2 n (i + 1)

/-- How one pass through the body of the retry loop of `compare_outputs` ends. -/
inductive Attempt where
  /-- The statement `return b`. -/
  | ret (b : Bool)
  /-- The next pass, after `Sleep(50)`. -/
  | again
deriving DecidableEq, Repr

/-- The body of the retry loop of `compare_outputs` on the contents that the two files have
during this pass (`none`: the file cannot be opened); the result is `none` only when a loop
runs out of fuel. The variable `line` is shared by the two reading loops. -/
def compare_attempt (c1 c2 : Option (List Char)) : Option Attempt :=
  let file1 := ifstream.open c1
  let file2 := ifstream.open c2
  if !file1.ok || !file2.ok then some Attempt.again
  else
    match read_trimmed_lines (file1.buf.length + 1) file1 [] [] with
    | none => none
    | some (_, line, l1) =>
      match read_trimmed_lines (file2.buf.length + 1) file2 line [] with
      | none => none
      | some (_, _, l2) =>
        match pop_empty_back (l1.length + 1) l1, pop_empty_back (l2.length + 1) l2 with
        | some p1, some p2 =>
          if p1.length ≠ p2.length then some (Attempt.ret false)
          else if lines_same p1 p2 p1.length 0 then some (Attempt.ret true)
          else some Attempt.again
        | _, _ => none

/-- The loop `for (int retry = 0; retry < 5; ++retry)` of `compare_outputs` with `n` passes
left, followed by the final `return false`. `f1 retry` and `f2 retry` are the contents of
the two files during pass `retry`. -/
def compare_outputs_loop (f1 f2 : Nat → Option (List Char)) : Nat → Nat → Option Bool
  | 0, _ => some false
  | n + 1, retry =>
    match compare_attempt (f1 retry) (f2 retry) with
    | none => none
    | some (Attempt.ret b) => some b
    | some Attempt.again => compare_outputs_loop f1 f2 n (retry + 1)

/-- The function `compare_outputs` of `judge_parallel.cpp` run with loop fuel. The first
loop of the function, which waits until both files exist with a size above zero, only
sleeps and has no part in the value returned; it is left out. -/
def compare_outputs_run (f1 f2 : Nat → Option (List Char)) : Option Bool :=
  compare_outputs_loop f1 f2 5 0

/-- The function `compare_outputs` of `judge_parallel.cpp`. -/
def compare_outputs (f1 f2 : Nat → Option (List Char)) : Bool :=
  (compare_outputs_run f1 f2).getD false

/-! ## Fuel is sufficient -/

theorem readline_some_length (buf : List Char) :
    ∀ line rest, readline buf = (line, some rest) → rest.length < buf.length := by
  induction buf with
  | nil => intro line rest h; simp [readline] at h
  | cons c cs ih =>
    intro line rest h
    by_cases hc : c = '\n'
    · simp [readline, hc] at h
      simp [← h.2]
    · simp only [readline, hc, if_false] at h
      have h2 : (readline cs).2 = some rest := (Prod.mk.inj h).2
      have := ih (readline cs).1 rest (by rw [← h2])
      simp only [List.length_cons]
      omega

/-- A successful `getline` extracts at least one character. -/
theorem getline_ok_lt (s : ifstream) (l : List Char) (h : (getline s l).1.ok = true) :
    (getline s l).1.buf.length < s.buf.length := by
  unfold getline at h ⊢
  by_cases hg : s.good = true
  · simp only [hg, if_true] at h ⊢
    rcases hr : readline s.buf with ⟨line, _ | rest⟩
    · simp only [hr, ifstream.ok] at h ⊢
      have hne : s.buf ≠ [] := by
        intro hnil
        rw [hnil] at hr
        simp [readline] at hr
        simp [← hr] at h
      simpa using List.length_pos.mpr hne
    · simp only [hr]
      exact readline_some_length s.buf line rest hr
  · simp [hg, ifstream.ok] at h

theorem while_pairs_some (fuel : Nat) :
    ∀ s : CmpState, s.a.buf.length < fuel → ∃ r, while_pairs fuel s = some r := by
  induction fuel with
  | zero => intro s h; omega
  | succ n ih =>
    intro s h
    simp only [while_pairs]
    split
    · rename_i ha
      split
      · split
        · exact ⟨_, rfl⟩
        · apply ih
          have := getline_ok_lt s.a s.l1 ha
          simp only
          omega
      · exact ⟨_, rfl⟩
    · exact ⟨_, rfl⟩

theorem do_while_blank_some (fuel : Nat) :
    ∀ (s : ifstream) (l : List Char), s.buf.length < fuel →
      ∃ r, do_while_blank fuel s l = some r := by
  induction fuel with
  | zero => intro s l h; omega
  | succ n ih =>
    intro s l h
    simp only [do_while_blank]
    split
    · exact ⟨_, rfl⟩
    · split
      · rename_i hs
        apply ih
        have := getline_ok_lt s l hs
        omega
      · exact ⟨_, rfl⟩

theorem compare_tail_some (a b : ifstream) (l1 l2 : List Char) :
    ∃ r, compare_tail a b l1 l2 = some r := by
  unfold compare_tail
  obtain ⟨ra, hra⟩ := do_while_blank_some (a.buf.length + 1) a l1 (Nat.lt_succ_self _)
  obtain ⟨rb, hrb⟩ := do_while_blank_some (b.buf.length + 1) b l2 (Nat.lt_succ_self _)
  rw [hra, hrb]
  rcases ra with r | p
  · exact ⟨_, rfl⟩
  · rcases rb with r | q
    · exact ⟨_, rfl⟩
    · exact ⟨_, rfl⟩

theorem compare_files_run_some (f1 f2 : Option (List Char)) :
    ∃ r, compare_files_run f1 f2 = some r := by
  unfold compare_files_run
  simp only
  split
  · exact ⟨_, rfl⟩
  · obtain ⟨r, hr⟩ := while_pairs_some ((ifstream.open f1).buf.length + 1)
      { a := ifstream.open f1, b := ifstream.open f2, l1 := [], l2 := [] } (Nat.lt_succ_self _)
    rw [hr]
    rcases r with r | s
    · exact ⟨_, rfl⟩
    · simp only
      split
      · exact compare_tail_some _ _ _ _
      · split
        · exact compare_tail_some _ _ _ _
        · exact ⟨_, rfl⟩

/-- The fuel given to the loops of `compare_files` always suffices: the run returns, and
it returns the value of `compare_files`. -/
theorem compare_files_run_eq (f1 f2 : Option (List Char)) :
    compare_files_run f1 f2 = some (compare_files f1 f2) := by
  obtain ⟨r, hr⟩ := compare_files_run_some f1 f2
  simp [compare_files, hr]

/-! ## The comparator -/

theorem getline_fst_indep (s : ifstream) (x y : List Char) :
    (getline s x).1 = (getline s y).1 := by
  unfold getline
  by_cases hg : s.good = true
  · simp only [hg, if_true]
  · simp [hg]

theorem getline_snd_of_ok (s : ifstream) (x y : List Char)
    (h : (getline s x).1.ok = true) : (getline s x).2 = (getline s y).2 := by
  unfold getline at h ⊢
  by_cases hg : s.good = true
  · simp only [hg, if_true]
  · simp [hg, ifstream.ok] at h

theorem getline_not_ok_of_not_ok (s : ifstream) (x : List Char) (h : s.ok = false) :
    (getline s x).1.ok = false := by
  have hf : s.failbit = true := by simpa [ifstream.ok] using h
  simp [getline, ifstream.good, ifstream.ok, hf]

/-- On two streams in the same state the first loop of `compare_files` ends normally,
and afterwards neither stream delivers another line. -/
theorem while_pairs_same (fuel : Nat) :
    ∀ s : CmpState, s.a = s.b → s.a.buf.length < fuel →
      ∃ t, while_pairs fuel s = some (Sum.inr t) ∧
        (∀ x, (getline t.a x).1.ok = false) ∧ (∀ y, (getline t.b y).1.ok = false) := by
  induction fuel with
  | zero => intro s _ h; omega
  | succ n ih =>
    intro s hab h
    simp only [while_pairs]
    by_cases ha : (getline s.a s.l1).1.ok = true
    · have hb : (getline s.b s.l2).1 = (getline s.a s.l1).1 := by
        rw [← hab]; exact getline_fst_indep _ _ _
      have hl : (getline s.b s.l2).2 = (getline s.a s.l1).2 := by
        rw [← hab]; exact (getline_snd_of_ok _ _ _ ha).symm
      have hlt := getline_ok_lt s.a s.l1 ha
      simp only [ha, hb, hl, if_true, ne_eq, not_true_eq_false, if_false]
      apply ih
      · rfl
      · simp only
        omega
    · have ha2 : (getline s.a s.l1).1.ok = false := by simpa using ha
      simp only [ha2, Bool.false_eq_true, if_false]
      refine ⟨_, rfl, ?_, ?_⟩
      · intro x
        exact getline_not_ok_of_not_ok _ _ ha2
      · intro y
        simp only
        rw [← hab, getline_fst_indep s.a y s.l1]
        exact ha2

/-- Claim C1 (defect of the code). `compare_files` is not the tolerant equality of the
specification. With the reference output `"5\n6\n"` and the candidate output `"5\n"` the
line `6` is read by the loop condition and overwritten by the next `getline` before it is
looked at: `compare_files` returns `true`, the normal forms differ, and `judge` gives `AC`.
With `"5"` against `"5\n\n"` the stale buffer of the exhausted first stream is tested as
if it were a surplus line: `compare_files` returns `false` although the normal forms are
equal. -/
theorem compare_files_not_spec_equal :
    compare_files_run (some "5\n6\n".toList) (some "5\n".toList) = some true ∧
    spec_equal "5\n6\n".toList "5\n".toList = false ∧
    (∃ r, (judge 0 "c++17" "" (env_ok "5\n6\n".toList "5\n".toList)).outcome =
        JudgeOutcome.returned r ∧ r.error_type = ErrorType.AC) ∧
    compare_files_run (some "5".toList) (some "5\n\n".toList) = some false ∧
    spec_equal "5".toList "5\n\n".toList = true := by
  refine ⟨by decide, by decide, ⟨_, rfl, by decide⟩, by decide, by decide⟩

/-- Claim C3 (defect of the code). `compare_files` is not symmetric: a first file with one
line more than the second is accepted whatever that line holds, while the same files in
the other order are rejected. -/
theorem compare_files_not_symmetric :
    compare_files_run (some "5\n6\n".toList) (some "5\n".toList) = some true ∧
    compare_files_run (some "5\n".toList) (some "5\n6\n".toList) = some false ∧
    compare_files (some "5\n6\n".toList) (some "5\n".toList) ≠
      compare_files (some "5\n".toList) (some "5\n6\n".toList) := by
  refine ⟨by decide, by decide, by decide⟩

/-- Claim C4 (defect of the code). Tolerance holds on the example of the specification,
where the first file ends in a newline, and fails when it does not: `f = "5"` has the
single line `5`, `g = "5 \t\n\n"` has that line followed by blanks and then one empty line,
and `compare_files f g` returns `false`, because the line buffer of the exhausted first
stream still holds `5` when it is tested as a surplus line. The same happens on the
example of the specification without the final newline of `f`. -/
theorem compare_files_tolerance_needs_final_newline :
    compare_files_run (some "1 2 3\n".toList) (some "1 2 3  \r\n\n\n".toList) = some true ∧
    spec_lines "5".toList = ["5".toList] ∧
    spec_lines "5 \t\n\n".toList = ["5".toList ++ " \t".toList, []] ∧
    spec_equal "5".toList "5 \t\n\n".toList = true ∧
    compare_files_run (some "5".toList) (some "5 \t\n\n".toList) = some false ∧
    compare_files_run (some "1 2 3".toList) (some "1 2 3  \r\n\n\n".toList) = some false := by
  refine ⟨by decide, by decide, by decide, by decide, by decide, by decide⟩

/-- Claim C10 (defect of the code). Inserting a non-whitespace character into a
non-terminal line need not flip the answer: `f = "5\n\n\n"` (lines `5` and two empty
lines) compares equal to `g = "5\n"`, rightly so; after inserting `a` into the second
line of `f` the answer is still `true`, because that line is read by the loop condition
and never looked at, while under the comparison of the specification the files now
differ. -/
theorem compare_files_insertion_unnoticed :
    spec_lines "5\n\n\n".toList = ["5".toList, [], []] ∧
    spec_lines "5\na\n\n".toList = ["5".toList, "a".toList, []] ∧
    compare_files_run (some "5\n\n\n".toList) (some "5\n".toList) = some true ∧
    spec_equal "5\n\n\n".toList "5\n".toList = true ∧
    compare_files_run (some "5\na\n\n".toList) (some "5\n".toList) = some true ∧
    spec_equal "5\na\n\n".toList "5\n".toList = false := by
  refine ⟨by decide, by decide, by decide, by decide, by decide, by decide⟩

/-! ## The pipeline -/

theorem run_program_exit_code (in_file : String) (e : RunEnv)
    (h : spec_outcome in_file e ≠ SpecOutcome.SpawnFailed) :
    (run_program in_file e).exit_code =
      if e.timed_out then -2 else if e.code = 0 then 0
      else if e.code = 0xC0000017 ∨ e.code = 0xC0000005 then -3 else -1 := by
  unfold spec_outcome at h
  unfold run_program
  by_cases h1 : e.out_created = true
  · by_cases h2 : (!in_file.isEmpty && !e.in_opened) = true
    · simp [h1, h2] at h
    · by_cases h3 : e.created = true
      · simp only [h1, h2, h3, Bool.not_true, Bool.false_eq_true, if_false]
        split
        · rfl
        · split
          · rfl
          · split <;> rfl
      · simp [h1, h2, h3] at h
  · simp [h1] at h

theorem run_program_spawn_failed (in_file : String) (e : RunEnv)
    (h : spec_outcome in_file e = SpecOutcome.SpawnFailed) :
    (run_program in_file e).exit_code = -1 := by
  unfold spec_outcome at h
  unfold run_program
  by_cases h1 : e.out_created = true
  · by_cases h2 : (!in_file.isEmpty && !e.in_opened) = true
    · simp [h1, h2]
    · by_cases h3 : e.created = true
      · simp only [h1, h2, h3, Bool.not_true, Bool.or_self, Bool.false_eq_true, if_false] at h
        split at h <;> simp at h
      · simp [h1, h2, h3]
  · simp [h1]

/-- In an environment, which holds an answer for every call that `judge` makes, a call of
`judge` whose directory was created returns a result. (A call that the operating system
never answers, such as a wait without bound, has no environment.) -/
theorem judge_returns (id : Int) (std_v save : String) (env : JudgeEnv)
    (hdir : env.dir_created = true) :
    ∃ r, (judge id std_v save env).outcome = JudgeOutcome.returned r := by
  unfold judge
  simp only [hdir, Bool.not_true, Bool.false_eq_true, if_false]
  repeat (first | exact ⟨_, rfl⟩ | split)

theorem spec_outcome_exit_zero (in_file : String) (e : RunEnv)
    (h : spec_outcome in_file e ≠ SpecOutcome.SpawnFailed) :
    (spec_outcome in_file e = SpecOutcome.Exited 0) ↔ (run_program in_file e).exit_code = 0 := by
  rw [run_program_exit_code in_file e h]
  unfold spec_outcome at h ⊢
  split at h
  · exact absurd rfl h
  · rename_i hs
    simp only [hs, Bool.false_eq_true, if_false]
    by_cases ht : e.timed_out = true
    · simp [ht]
    · simp only [ht, Bool.false_eq_true, if_false, SpecOutcome.Exited.injEq]
      by_cases hc : e.code = 0
      · simp [hc]
      · simp only [hc, if_false, false_iff]
        split <;> decide

theorem judge_archive_keeps (save : String) (id : Int) (res : JudgeResult) :
    (judge_archive save id res).1.error_type = res.error_type ∧
    (judge_archive save id res).1.result = res.result ∧
    (judge_archive save id res).1.message = res.message := by
  unfold judge_archive
  split
  · split <;> exact ⟨rfl, rfl, rfl⟩
  · exact ⟨rfl, rfl, rfl⟩

theorem judge_classify_name (id : Int) (std_v : String) (d a u : List Char) (r3 : RunResult)
    (equal : Bool) :
    (judge_classify id std_v d a u r3 equal).result =
      (judge_classify id std_v d a u r3 equal).error_type.name := by
  unfold judge_classify
  repeat (first | rfl | split)

theorem judge_classify_error_type (id : Int) (std_v : String) (d a u : List Char)
    (r3 : RunResult) (equal : Bool) :
    (judge_classify id std_v d a u r3 equal).error_type =
      if r3.exit_code = -2 then ErrorType.TLE
      else if r3.exit_code = -3 then ErrorType.MLE
      else if r3.exit_code ≠ 0 then ErrorType.RE
      else if equal then ErrorType.AC else ErrorType.WA := by
  unfold judge_classify
  repeat (first | rfl | split)

/-- Claim C2. When the isolation directory was provisioned and each of the three runs
either times out or exits with a code, `judge` returns a result whose verdict is the
terminal that the state machine of the specification reaches on the same stage outcomes
(failed staging copy: `UKE`; first failing compile: `CE`; generator or reference not
exiting with 0: `UKE`; candidate timeout: `TLE`; candidate exit code `0xC0000017` or
`0xC0000005`: `MLE`; any other nonzero code: `RE`; code 0: `AC` or `WA` as
`compare_files` decides), and whose result string is the name of that verdict. -/
theorem judge_verdict_eq_spec (id : Int) (std_v save : String) (env : JudgeEnv)
    (hdir : env.dir_created = true)
    (h1 : spec_outcome "" env.run_make ≠ SpecOutcome.SpawnFailed)
    (h2 : spec_outcome "data.in" env.run_ans ≠ SpecOutcome.SpawnFailed)
    (h3 : spec_outcome "data.in" env.run_unk ≠ SpecOutcome.SpawnFailed) :
    ∃ r, (judge id std_v save env).outcome = JudgeOutcome.returned r ∧
      spec_verdict (stage_outcomes env) = PipeState.DONE r.error_type ∧
      r.result = r.error_type.name := by
  have z1 := spec_outcome_exit_zero _ _ h1
  have z2 := spec_outcome_exit_zero _ _ h2
  have e3 := run_program_exit_code _ _ h3
  unfold spec_verdict
  simp only [Function.iterate_succ, Function.iterate_zero, Function.comp, spec_step,
    stage_outcomes, id_eq]
  unfold judge
  simp only [hdir, Bool.not_true, Bool.false_eq_true, if_false]
  by_cases hc : (stage_copies env).1 = true
  · have hc2 : (env.copy_make && env.copy_ans && env.copy_unk) = true := by
      unfold stage_copies at hc
      revert hc
      cases env.copy_make <;> cases env.copy_ans <;> cases env.copy_unk <;> simp
    simp only [hc, hc2, Bool.not_true, Bool.false_eq_true, if_false, if_true]
    by_cases hm : env.ret_make = 0
    · by_cases ha : env.ret_ans = 0
      · by_cases hu : env.ret_unk = 0
        · simp only [hm, ha, hu, compile, ne_eq, not_true_eq_false, if_false, decide_True,
            if_true, Bool.not_true, Bool.false_eq_true]
          by_cases g1 : (run_program "" env.run_make).exit_code = 0
          · by_cases g2 : (run_program "data.in" env.run_ans).exit_code = 0
            · simp only [g1, g2, z1.mpr g1, z2.mpr g2, not_true_eq_false, if_false, if_true]
              refine ⟨_, rfl, ?_, ?_⟩
              · simp only [(judge_archive_keeps _ _ _).1, judge_classify_error_type, e3]
                unfold spec_outcome at h3 ⊢
                split at h3
                · exact absurd rfl h3
                · rename_i hs
                  simp only [hs, Bool.false_eq_true, if_false]
                  by_cases ht : env.run_unk.timed_out = true
                  · simp [ht]
                  · simp only [ht, Bool.false_eq_true, if_false]
                    by_cases hz : env.run_unk.code = 0
                    · simp only [hz, if_true]
                      cases compare_files env.data_ans env.data_out <;> simp
                    · simp only [hz, if_false, spec_memory_code, Bool.or_eq_true,
                        decide_eq_true_eq]
                      by_cases hmem : env.run_unk.code = 0xC0000017 ∨ env.run_unk.code = 0xC0000005
                      · simp [hmem]
                      · simp [hmem]
              · simp only [(judge_archive_keeps _ _ _).1, (judge_archive_keeps _ _ _).2.1]
                exact judge_classify_name _ _ _ _ _ _ _
            · have n2 := mt z2.mp g2
              simp only [g1, g2, z1.mpr g1, n2, not_true_eq_false, not_false_eq_true, if_false,
                if_true]
              exact ⟨_, rfl, rfl, rfl⟩
          · have n1 := mt z1.mp g1
            simp only [g1, n1, not_false_eq_true, if_false, if_true]
            exact ⟨_, rfl, rfl, rfl⟩
        · simp only [hm, ha, hu, compile, ne_eq, not_true_eq_false, not_false_eq_true, if_false,
            decide_True, decide_False, if_true, Bool.not_true, Bool.not_false, Bool.false_eq_true]
          exact ⟨_, rfl, rfl, rfl⟩
      · simp only [hm, ha, compile, ne_eq, not_true_eq_false, not_false_eq_true, if_false,
          decide_True, decide_False, if_true, Bool.not_true, Bool.not_false, Bool.false_eq_true]
        exact ⟨_, rfl, rfl, rfl⟩
    · simp only [hm, compile, ne_eq, not_true_eq_false, not_false_eq_true, if_false,
        decide_True, decide_False, if_true, Bool.not_true, Bool.not_false, Bool.false_eq_true]
      exact ⟨_, rfl, rfl, rfl⟩
  · have hc1 : (stage_copies env).1 = false := by simpa using hc
    have hc2 : (env.copy_make && env.copy_ans && env.copy_unk) = false := by
      unfold stage_copies at hc1
      revert hc1
      cases env.copy_make <;> cases env.copy_ans <;> cases env.copy_unk <;> simp
    simp only [hc1, hc2, Bool.not_false, Bool.false_eq_true, if_false, if_true]
    exact ⟨_, rfl, rfl, rfl⟩

/-- The state machine and `judge` agree on a run whose candidate exits with the access
violation code: the verdict is `MLE`. -/
theorem judge_verdict_eq_spec_witness :
    spec_verdict (stage_outcomes env_unk_mle) = PipeState.DONE ErrorType.MLE ∧
    ∃ r, (judge 0 "c++17" "" env_unk_mle).outcome = JudgeOutcome.returned r ∧
      spec_verdict (stage_outcomes env_unk_mle) = PipeState.DONE r.error_type ∧
      r.result = r.error_type.name :=
  ⟨by decide, judge_verdict_eq_spec 0 "c++17" "" env_unk_mle (by decide) (by decide)
    (by decide) (by decide)⟩

theorem stage_copies_no_save (env : JudgeEnv) (d : String) :
    Event.save_files d ∉ (stage_copies env).2 := by
  unfold stage_copies
  split
  · simp
  · split <;> simp

theorem logger_open_no_save (b : Bool) (x d : String) :
    Event.save_files d ∉ logger_open b x := by
  cases b <;> simp [logger_open]

theorem logger_log_no_save (b : Bool) (x d : String) :
    Event.save_files d ∉ logger_log b x := by
  cases b <;> simp [logger_log]

theorem logger_close_no_save (b : Bool) (x d : String) :
    Event.save_files d ∉ logger_close b x := by
  cases b <;> simp [logger_close]

theorem judge_classify_files_saved (id : Int) (std_v : String) (d a u : List Char)
    (r3 : RunResult) (equal : Bool) :
    (judge_classify id std_v d a u r3 equal).files_saved = false := by
  unfold judge_classify
  repeat (first | rfl | split)

/-- The two ways in which `judge` returns: through an early return or the `catch` block,
with a `CE` or `UKE` result that does not depend on the archive root and without a call
of `save_files`; or through the classification of the candidate run followed by the
archival step, which makes the only calls of `save_files`. -/
theorem judge_paths (id : Int) (std_v : String) (env : JudgeEnv)
    (hdir : env.dir_created = true) :
    (∃ res, (∀ save, (judge id std_v save env).outcome = JudgeOutcome.returned res ∧
          ∀ d, Event.save_files d ∉ (judge id std_v save env).trace) ∧
        res.files_saved = false ∧
        (res.error_type = ErrorType.CE ∨ res.error_type = ErrorType.UKE)) ∨
    (∀ save,
        (judge id std_v save env).outcome = JudgeOutcome.returned
          (judge_archive save id (judge_classify id std_v
            (read_file env.data_in read_file_max) (read_file env.data_ans read_file_max)
            (read_file env.data_out read_file_max) (run_program "data.in" env.run_unk)
            (compare_files env.data_ans env.data_out))).1 ∧
        ∀ d, Event.save_files d ∈ (judge id std_v save env).trace ↔
          Event.save_files d ∈ (judge_archive save id (judge_classify id std_v
            (read_file env.data_in read_file_max) (read_file env.data_ans read_file_max)
            (read_file env.data_out read_file_max) (run_program "data.in" env.run_unk)
            (compare_files env.data_ans env.data_out))).2) := by
  have hns := stage_copies_no_save env
  by_cases c0 : (stage_copies env).1 = true
  · by_cases c1 : compile env.ret_make = true
    · by_cases c2 : compile env.ret_ans = true
      · by_cases c3 : compile env.ret_unk = true
        · by_cases c4 : (run_program "" env.run_make).exit_code = 0
          · by_cases c5 : (run_program "data.in" env.run_ans).exit_code = 0
            · refine Or.inr (fun save => ⟨?_, fun d => ?_⟩)
              · simp [judge, hdir, c0, c1, c2, c3, c4, c5, judge_return]
              · have := hns d
                simp only [judge, hdir, c0, c1, c2, c3, c4, c5, judge_return, Bool.not_true,
                  Bool.false_eq_true, if_false, ne_eq, not_true_eq_false]
                split <;> simp [this, logger_open_no_save, logger_log_no_save,
                  logger_close_no_save]
            · refine Or.inl ⟨early_result id "UKE"
                ("ans failed: " ++ (run_program "data.in" env.run_ans).err_msg) std_v
                ErrorType.UKE (read_file env.data_in read_file_max),
                fun save => ⟨?_, fun d => ?_⟩, rfl, Or.inr rfl⟩
              · simp [judge, hdir, c0, c1, c2, c3, c4, c5, judge_return]
              · simp [judge, hdir, c0, c1, c2, c3, c4, c5, judge_return, hns d, logger_open_no_save, logger_log_no_save,
                logger_close_no_save]
          · refine Or.inl ⟨early_result id "UKE"
              ("make failed: " ++ (run_program "" env.run_make).err_msg) std_v
              ErrorType.UKE [], fun save => ⟨?_, fun d => ?_⟩, rfl, Or.inr rfl⟩
            · simp [judge, hdir, c0, c1, c2, c3, c4, judge_return]
            · simp [judge, hdir, c0, c1, c2, c3, c4, judge_return, hns d, logger_open_no_save, logger_log_no_save,
                logger_close_no_save]
        · refine Or.inl ⟨early_result id "CE" "unknown.cpp compile error" std_v
            ErrorType.CE [], fun save => ⟨?_, fun d => ?_⟩, rfl, Or.inl rfl⟩
          · simp [judge, hdir, c0, c1, c2, c3, judge_return]
          · simp [judge, hdir, c0, c1, c2, c3, judge_return, hns d, logger_open_no_save, logger_log_no_save,
                logger_close_no_save]
      · refine Or.inl ⟨early_result id "CE" "ans.cpp compile error" std_v
          ErrorType.CE [], fun save => ⟨?_, fun d => ?_⟩, rfl, Or.inl rfl⟩
        · simp [judge, hdir, c0, c1, c2, judge_return]
        · simp [judge, hdir, c0, c1, c2, judge_return, hns d, logger_open_no_save, logger_log_no_save,
                logger_close_no_save]
    · refine Or.inl ⟨early_result id "CE" "make.cpp compile error" std_v
        ErrorType.CE [], fun save => ⟨?_, fun d => ?_⟩, rfl, Or.inl rfl⟩
      · simp [judge, hdir, c0, c1, judge_return]
      · simp [judge, hdir, c0, c1, judge_return, hns d, logger_open_no_save, logger_log_no_save,
                logger_close_no_save]
  · refine Or.inl ⟨early_result id "UKE" ("Exception: " ++ "Copy failed") std_v
      ErrorType.UKE [], fun save => ⟨?_, fun d => ?_⟩, rfl, Or.inr rfl⟩
    · simp [judge, hdir, c0, judge_return]
    · simp [judge, hdir, c0, judge_return, hns d, logger_open_no_save, logger_log_no_save,
                logger_close_no_save]

theorem judge_classify_not_early (id : Int) (std_v : String) (d a u : List Char)
    (r3 : RunResult) (equal : Bool) :
    (judge_classify id std_v d a u r3 equal).error_type ≠ ErrorType.CE ∧
    (judge_classify id std_v d a u r3 equal).error_type ≠ ErrorType.UKE := by
  rw [judge_classify_error_type]
  constructor <;> repeat (first | decide | split)

theorem judge_archive_saves (save : String) (id : Int) (res : JudgeResult)
    (hs : save ≠ "") (hv : res.error_type ≠ ErrorType.AC) :
    judge_archive save id res =
      ({ res with files_saved := true, saved_path := save ++ "\\task_" ++ toString id },
        [Event.save_files (save ++ "\\task_" ++ toString id)]) := by
  have he : save.isEmpty = false := by
    cases h : save.isEmpty
    · rfl
    · exact absurd ((String.isEmpty_iff save).mp h) hs
  simp [judge_archive, save_files, hv, he]

theorem judge_archive_files_saved (save : String) (id : Int) (res : JudgeResult)
    (h0 : res.files_saved = false) (h : (judge_archive save id res).1.files_saved = true) :
    res.error_type ≠ ErrorType.AC ∧ save ≠ "" := by
  unfold judge_archive at h
  by_cases hv : res.error_type = ErrorType.AC
  · simp [hv, h0] at h
  · refine ⟨hv, ?_⟩
    intro hs
    subst hs
    have he : "".isEmpty = true := rfl
    simp [hv, save_files, h0, he] at h

theorem judge_archive_no_root (id : Int) (res : JudgeResult) :
    judge_archive "" id res = (res, []) := by
  have he : "".isEmpty = true := rfl
  unfold judge_archive save_files
  split <;> simp [he]

/-- Claim C5 (counterexample). When `CreateProcessA` fails for the candidate, after every
earlier stage succeeded, `run_program` returns exit code `-1`, the same as for a runtime
error, and `judge` returns the verdict `RE`, not `UKE`. -/
theorem candidate_spawn_failure_is_RE :
    spec_outcome "data.in" env_unk_spawn_fails.run_unk = SpecOutcome.SpawnFailed ∧
    run_program "data.in" env_unk_spawn_fails.run_unk =
      { exit_code := -1, err_msg := "Failed to start process" } ∧
    (judge 0 "c++17" "" env_unk_spawn_fails).outcome = JudgeOutcome.returned
      { id := 0, result := "RE", message := "Runtime Error", std_version := "c++17",
        error_type := ErrorType.RE, input_data := "5\n".toList, ans_output := "5\n".toList,
        unk_output := [], files_saved := false, saved_path := "" } ∧
    ErrorType.RE ≠ ErrorType.UKE := by
  refine ⟨by decide, by decide, by decide, by decide⟩

/-- Claim C5 (amended). After successful staging and compilation, a spawn failure of
`run_program` (the output file cannot be created, the input file cannot be opened, or
`CreateProcessA` fails) gives the verdict `UKE` when it happens for the generator, `UKE`
when it happens for the reference after the generator exited with 0, and `RE` with the
message `Runtime Error` when it happens for the candidate after the generator and the
reference exited with 0. -/
theorem spawn_failure_verdicts (id : Int) (std_v save : String) (env : JudgeEnv)
    (hdir : env.dir_created = true) (hcopy : (stage_copies env).1 = true)
    (hm : env.ret_make = 0) (ha : env.ret_ans = 0) (hu : env.ret_unk = 0) :
    (spec_outcome "" env.run_make = SpecOutcome.SpawnFailed →
      ∃ r, (judge id std_v save env).outcome = JudgeOutcome.returned r ∧
        r.error_type = ErrorType.UKE) ∧
    ((run_program "" env.run_make).exit_code = 0 →
      spec_outcome "data.in" env.run_ans = SpecOutcome.SpawnFailed →
      ∃ r, (judge id std_v save env).outcome = JudgeOutcome.returned r ∧
        r.error_type = ErrorType.UKE) ∧
    ((run_program "" env.run_make).exit_code = 0 →
      (run_program "data.in" env.run_ans).exit_code = 0 →
      spec_outcome "data.in" env.run_unk = SpecOutcome.SpawnFailed →
      ∃ r, (judge id std_v save env).outcome = JudgeOutcome.returned r ∧
        r.error_type = ErrorType.RE ∧ r.message = "Runtime Error") := by
  refine ⟨fun h => ?_, fun g1 h => ?_, fun g1 g2 h => ?_⟩
  · have e := run_program_spawn_failed _ _ h
    refine ⟨early_result id "UKE" ("make failed: " ++ (run_program "" env.run_make).err_msg)
      std_v ErrorType.UKE [], ?_, rfl⟩
    simp [judge, hdir, hcopy, compile, hm, ha, hu, e, judge_return]
  · have e := run_program_spawn_failed _ _ h
    refine ⟨early_result id "UKE"
      ("ans failed: " ++ (run_program "data.in" env.run_ans).err_msg) std_v ErrorType.UKE
      (read_file env.data_in read_file_max), ?_, rfl⟩
    simp [judge, hdir, hcopy, compile, hm, ha, hu, g1, e, judge_return]
  · have e := run_program_spawn_failed _ _ h
    refine ⟨(judge_archive save id (judge_classify id std_v
      (read_file env.data_in read_file_max) (read_file env.data_ans read_file_max)
      (read_file env.data_out read_file_max) (run_program "data.in" env.run_unk)
      (compare_files env.data_ans env.data_out))).1, ?_, ?_, ?_⟩
    · simp [judge, hdir, hcopy, compile, hm, ha, hu, g1, g2, judge_return]
    · rw [(judge_archive_keeps _ _ _).1, judge_classify_error_type, e]
      simp
    · rw [(judge_archive_keeps _ _ _).2.2]
      simp [judge_classify, e]

/-- The run in which `CreateProcessA` fails for the candidate, after every earlier stage
succeeded, is judged `RE`. -/
theorem spawn_failure_verdicts_witness :
    ∃ r, (judge 0 "c++17" "" env_unk_spawn_fails).outcome = JudgeOutcome.returned r ∧
      r.error_type = ErrorType.RE ∧ r.message = "Runtime Error" :=
  (spawn_failure_verdicts 0 "c++17" "" env_unk_spawn_fails (by decide) (by decide)
    (by decide) (by decide) (by decide)).2.2 (by decide) (by decide) (by decide)

/-- Claim C6 (counterexample). When the isolation directory cannot be created, `judge`
returns no result at all: `create_task_dir` writes the cause to standard error and calls
`exit(1)`. -/
theorem judge_without_dir_exits :
    env_no_dir.dir_created = false ∧
    judge 0 "c++17" "" env_no_dir =
      { outcome := JudgeOutcome.exited 1,
        trace := [Event.mkdir "T\\judge_0_1_abcdefgh",
          Event.cerr "Failed to create: T\\judge_0_1_abcdefgh", Event.exit 1] } ∧
    ¬ ∃ r, (judge 0 "c++17" "" env_no_dir).outcome = JudgeOutcome.returned r := by
  refine ⟨by decide, by decide, ?_⟩
  rintro ⟨r, hr⟩
  have h : (judge 0 "c++17" "" env_no_dir).outcome = JudgeOutcome.exited 1 := by decide
  rw [h] at hr
  exact JudgeOutcome.noConfusion hr

/-- Claim C6 (amended). When the isolation directory cannot be created, the task yields no
outcome: after `_mkdir`, `create_task_dir` writes the line `Failed to create: <dir>` to
standard error and calls `exit(1)`, which ends the process; the call of `judge` does
nothing else (no log file, no copy, no removal) and returns no result. -/
theorem create_task_dir_failure_exits (id : Int) (std_v save : String) (env : JudgeEnv)
    (h : env.dir_created = false) :
    judge id std_v save env =
      { outcome := JudgeOutcome.exited 1,
        trace := [Event.mkdir env.dir, Event.cerr ("Failed to create: " ++ env.dir),
          Event.exit 1] } ∧
    ¬ ∃ r, (judge id std_v save env).outcome = JudgeOutcome.returned r := by
  have hj : judge id std_v save env =
      { outcome := JudgeOutcome.exited 1,
        trace := [Event.mkdir env.dir, Event.cerr ("Failed to create: " ++ env.dir),
          Event.exit 1] } := by
    simp [judge, h]
  refine ⟨hj, ?_⟩
  rintro ⟨r, hr⟩
  rw [hj] at hr
  exact JudgeOutcome.noConfusion hr

/-- Task 7 with the archive root `arch` in an environment whose directory cannot be
created: the cause goes to standard error, the process exits with status 1, and no result
is returned. -/
theorem create_task_dir_failure_exits_witness :
    judge 7 "c++17" "arch" env_no_dir =
      { outcome := JudgeOutcome.exited 1,
        trace := [Event.mkdir "T\\judge_0_1_abcdefgh",
          Event.cerr "Failed to create: T\\judge_0_1_abcdefgh", Event.exit 1] } ∧
    ¬ ∃ r, (judge 7 "c++17" "arch" env_no_dir).outcome = JudgeOutcome.returned r :=
  create_task_dir_failure_exits 7 "c++17" "arch" env_no_dir (by decide)

theorem judge_dir_created_of_returned (id : Int) (std_v save : String) (env : JudgeEnv)
    (r : JudgeResult) (hr : (judge id std_v save env).outcome = JudgeOutcome.returned r) :
    env.dir_created = true := by
  cases h : env.dir_created
  · simp [judge, h] at hr
  · rfl

/-- Claim C7 (counterexample). A task whose generator does not compile ends with the
verdict `CE`; with the archive root `arch` configured, `judge` returns through the early
return after `compile`: `save_files` is not called and `files_saved` is `false`. -/
theorem no_archive_on_compile_error :
    judge 0 "c++17" "arch" env_make_ce =
      { outcome := JudgeOutcome.returned
          { id := 0, result := "CE", message := "make.cpp compile error",
            std_version := "c++17", error_type := ErrorType.CE, input_data := [],
            ans_output := [], unk_output := [], files_saved := false, saved_path := "" },
        trace := [Event.mkdir "T\\judge_0_1_abcdefgh",
          Event.log_open "T\\judge_0_1_abcdefgh\\task_0_log.txt",
          Event.log "Judge start in T\\judge_0_1_abcdefgh",
          Event.copy_file "T\\judge_0_1_abcdefgh\\make.cpp",
          Event.copy_file "T\\judge_0_1_abcdefgh\\ans.cpp",
          Event.copy_file "T\\judge_0_1_abcdefgh\\unknown.cpp",
          Event.compile "make",
          Event.remove_directory "T\\judge_0_1_abcdefgh",
          Event.log "=== End ===",
          Event.log_close "T\\judge_0_1_abcdefgh\\task_0_log.txt"] } := by
  decide

/-- Claim C7 (amended). With a non-empty archive root, every run of `judge` that returns
one of the verdicts `WA`, `RE`, `TLE`, `MLE` has called `save_files` for
`<archive>\task_<id>` and returns `files_saved == true` with that path in `saved_path`;
every run that returns `CE` or `UKE` has not called `save_files` and returns
`files_saved == false`. -/
theorem archive_on_candidate_verdicts (id : Int) (std_v save : String) (env : JudgeEnv)
    (r : JudgeResult) (hs : save ≠ "")
    (hr : (judge id std_v save env).outcome = JudgeOutcome.returned r) :
    ((r.error_type = ErrorType.WA ∨ r.error_type = ErrorType.RE ∨
        r.error_type = ErrorType.TLE ∨ r.error_type = ErrorType.MLE) →
      Event.save_files (save ++ "\\task_" ++ toString id) ∈ (judge id std_v save env).trace ∧
      r.files_saved = true ∧ r.saved_path = save ++ "\\task_" ++ toString id) ∧
    ((r.error_type = ErrorType.CE ∨ r.error_type = ErrorType.UKE) →
      r.files_saved = false ∧ ∀ d, Event.save_files d ∉ (judge id std_v save env).trace) := by
  have hdir := judge_dir_created_of_returned id std_v save env r hr
  rcases judge_paths id std_v env hdir with ⟨res, h, hf, hv⟩ | h
  · have hres : r = res := by
      have := (h save).1
      rw [hr] at this
      exact JudgeOutcome.returned.inj this
    subst hres
    refine ⟨fun hw => ?_, fun _ => ⟨hf, (h save).2⟩⟩
    rcases hv with hv | hv <;> rw [hv] at hw <;> simp at hw
  · have hres : r = (judge_archive save id (judge_classify id std_v
        (read_file env.data_in read_file_max) (read_file env.data_ans read_file_max)
        (read_file env.data_out read_file_max) (run_program "data.in" env.run_unk)
        (compare_files env.data_ans env.data_out))).1 := by
      have := (h save).1
      rw [hr] at this
      exact JudgeOutcome.returned.inj this
    have hty : r.error_type = (judge_classify id std_v
        (read_file env.data_in read_file_max) (read_file env.data_ans read_file_max)
        (read_file env.data_out read_file_max) (run_program "data.in" env.run_unk)
        (compare_files env.data_ans env.data_out)).error_type := by
      rw [hres]; exact (judge_archive_keeps _ _ _).1
    have hne := judge_classify_not_early id std_v
        (read_file env.data_in read_file_max) (read_file env.data_ans read_file_max)
        (read_file env.data_out read_file_max) (run_program "data.in" env.run_unk)
        (compare_files env.data_ans env.data_out)
    refine ⟨fun hw => ?_, fun hce => ?_⟩
    · have hnac : (judge_classify id std_v
          (read_file env.data_in read_file_max) (read_file env.data_ans read_file_max)
          (read_file env.data_out read_file_max) (run_program "data.in" env.run_unk)
        (compare_files env.data_ans env.data_out)).error_type ≠ ErrorType.AC := by
        rw [← hty]
        rcases hw with hw | hw | hw | hw <;> rw [hw] <;> decide
      have hsv := judge_archive_saves save id _ hs hnac
      refine ⟨?_, ?_, ?_⟩
      · rw [(h save).2, hsv]
        simp
      · rw [hres, hsv]
      · rw [hres, hsv]
    · rw [hty] at hce
      rcases hce with hce | hce
      · exact absurd hce hne.1
      · exact absurd hce hne.2

/-- A run judged `WA` with the archive root `arch` calls `save_files` for `arch\task_0`
and reports it. -/
theorem archive_on_candidate_verdicts_witness :
    Event.save_files ("arch" ++ "\\task_" ++ toString (0 : Int)) ∈
      (judge 0 "c++17" "arch" (env_ok "5\n".toList "6\n".toList)).trace ∧
    res_wa_saved.files_saved = true ∧
    res_wa_saved.saved_path = "arch" ++ "\\task_" ++ toString (0 : Int) :=
  (archive_on_candidate_verdicts 0 "c++17" "arch" (env_ok "5\n".toList "6\n".toList)
    res_wa_saved (by decide) (by decide)).1 (Or.inl rfl)

/-- Claim C8. For every result returned by `judge`, `files_saved == true` implies that the
verdict is not `AC` and that the archive root was not empty. The archival step changes
nothing but `files_saved` and `saved_path`: it keeps the verdict, the result string and
the message of the result it is applied to, and the run with the archive root agrees in
these three fields with the same run without archive root, which saves nothing. -/
theorem files_saved_sound (id : Int) (std_v save : String) (env : JudgeEnv)
    (r : JudgeResult) (hr : (judge id std_v save env).outcome = JudgeOutcome.returned r) :
    (r.files_saved = true → r.error_type ≠ ErrorType.AC ∧ save ≠ "") ∧
    (∀ res, (judge_archive save id res).1.error_type = res.error_type ∧
      (judge_archive save id res).1.result = res.result ∧
      (judge_archive save id res).1.message = res.message) ∧
    (∃ r0, (judge id std_v "" env).outcome = JudgeOutcome.returned r0 ∧
      r0.files_saved = false ∧ r.error_type = r0.error_type ∧ r.result = r0.result ∧
      r.message = r0.message) := by
  have hdir := judge_dir_created_of_returned id std_v save env r hr
  refine ⟨?_, fun res => judge_archive_keeps save id res, ?_⟩
  · rcases judge_paths id std_v env hdir with ⟨res, h, hf, _⟩ | h
    · have hres : r = res := by
        have := (h save).1
        rw [hr] at this
        exact JudgeOutcome.returned.inj this
      subst hres
      intro hsaved
      rw [hf] at hsaved
      exact absurd hsaved (by decide)
    · have hres : r = (judge_archive save id (judge_classify id std_v
          (read_file env.data_in read_file_max) (read_file env.data_ans read_file_max)
          (read_file env.data_out read_file_max) (run_program "data.in" env.run_unk)
        (compare_files env.data_ans env.data_out))).1 := by
        have := (h save).1
        rw [hr] at this
        exact JudgeOutcome.returned.inj this
      intro hsaved
      rw [hres] at hsaved
      have := judge_archive_files_saved save id _ (judge_classify_files_saved _ _ _ _ _ _ _)
        hsaved
      refine ⟨?_, this.2⟩
      rw [hres, (judge_archive_keeps _ _ _).1]
      exact this.1
  · rcases judge_paths id std_v env hdir with ⟨res, h, hf, _⟩ | h
    · have hres : r = res := by
        have := (h save).1
        rw [hr] at this
        exact JudgeOutcome.returned.inj this
      subst hres
      exact ⟨r, (h "").1, hf, rfl, rfl, rfl⟩
    · have hres : r = (judge_archive save id (judge_classify id std_v
          (read_file env.data_in read_file_max) (read_file env.data_ans read_file_max)
          (read_file env.data_out read_file_max) (run_program "data.in" env.run_unk)
        (compare_files env.data_ans env.data_out))).1 := by
        have := (h save).1
        rw [hr] at this
        exact JudgeOutcome.returned.inj this
      refine ⟨_, (h "").1, ?_, ?_, ?_, ?_⟩
      · rw [judge_archive_no_root]
        exact judge_classify_files_saved _ _ _ _ _ _ _
      · rw [hres, (judge_archive_keeps _ _ _).1, (judge_archive_keeps _ _ _).1]
      · rw [hres, (judge_archive_keeps _ _ _).2.1, (judge_archive_keeps _ _ _).2.1]
      · rw [hres, (judge_archive_keeps _ _ _).2.2, (judge_archive_keeps _ _ _).2.2]

/-- A run judged `WA` with the archive root `arch` has `files_saved == true`, a verdict
other than `AC`, and a non-empty archive root. -/
theorem files_saved_sound_witness :
    (judge 0 "c++17" "arch" (env_ok "5\n".toList "6\n".toList)).outcome =
      JudgeOutcome.returned res_wa_saved ∧
    res_wa_saved.files_saved = true ∧
    res_wa_saved.error_type ≠ ErrorType.AC ∧ "arch" ≠ "" :=
  ⟨by decide, by decide,
    (files_saved_sound 0 "c++17" "arch" (env_ok "5\n".toList "6\n".toList) res_wa_saved
      (by decide)).1 (by decide)⟩

/-- Claim C9. Comparator reflexivity: every readable file content, with or without a
final newline and also when empty, compares equal to itself (the run of `compare_files`
returns, and returns `true`); hence no run of `judge` in which the output of the candidate
has the same bytes as the output of the reference returns the verdict `WA`. -/
theorem compare_files_refl (f : List Char) :
    compare_files (some f) (some f) = true ∧
    compare_files_run (some f) (some f) = some true ∧
    ∀ (id : Int) (std_v save : String) (env : JudgeEnv) (r : JudgeResult),
      env.data_ans = some f → env.data_out = some f →
      (judge id std_v save env).outcome = JudgeOutcome.returned r →
      r.error_type ≠ ErrorType.WA := by
  have hrun : compare_files_run (some f) (some f) = some true := by
    obtain ⟨t, ht, h1, h2⟩ := while_pairs_same (f.length + 1)
      { a := ifstream.open (some f), b := ifstream.open (some f), l1 := [], l2 := [] }
      rfl (Nat.lt_succ_self _)
    simp only [compare_files_run, ifstream.open, ifstream.ok] at ht ⊢
    simp only [Bool.not_false, Bool.not_true, Bool.or_self, Bool.false_eq_true, if_false, ht]
    simp only [ifstream.ok] at h1 h2
    simp [h1, h2]
  have hcmp : compare_files (some f) (some f) = true := by
    simp [compare_files, hrun]
  refine ⟨hcmp, hrun, ?_⟩
  intro id std_v save env r ha ho hr
  have hdir := judge_dir_created_of_returned id std_v save env r hr
  rcases judge_paths id std_v env hdir with ⟨res, h, _, hv⟩ | h
  · have hres : r = res := by
      have := (h save).1
      rw [hr] at this
      exact JudgeOutcome.returned.inj this
    subst hres
    rcases hv with hv | hv <;> rw [hv] <;> decide
  · have hres := (h save).1
    rw [hr] at hres
    rw [JudgeOutcome.returned.inj hres, (judge_archive_keeps _ _ _).1,
      judge_classify_error_type, ha, ho, hcmp]
    repeat (first | decide | split)

/-- Reflexivity at the output `5` without final newline: the comparator accepts, and
the run in which every stage succeeds is judged `AC`, not `WA`. -/
theorem compare_files_refl_witness :
    compare_files (some "5".toList) (some "5".toList) = true ∧
    (judge 0 "c++17" "" (env_ok "5".toList "5".toList)).outcome =
      JudgeOutcome.returned res_ac_five ∧
    res_ac_five.error_type ≠ ErrorType.WA :=
  ⟨(compare_files_refl "5".toList).1, by decide,
    (compare_files_refl "5".toList).2.2 0 "c++17" "" (env_ok "5".toList "5".toList)
      res_ac_five rfl rfl (by decide)⟩

/-! ## Read-back truncation -/

theorem read_file_short (c : List Char) (h : c.length ≤ 10000) :
    read_file (some c) read_file_max = c := by
  have hm : min read_file_max c.length = c.length := by
    unfold read_file_max
    omega
  simp only [read_file, hm, List.take_length]
  rw [if_neg (by omega)]

theorem read_file_long (c : List Char) (h : 10000 < c.length) :
    read_file (some c) read_file_max = c.take 10000 ++ "\n...(truncated)".toList ∧
    (read_file (some c) read_file_max).length = 10015 := by
  have hm : 10000 < min read_file_max c.length := by
    unfold read_file_max
    omega
  have hr : read_file (some c) read_file_max = c.take 10000 ++ "\n...(truncated)".toList := by
    simp only [read_file]
    rw [if_pos hm, List.take_take]
    congr 2
    omega
  refine ⟨hr, ?_⟩
  rw [hr, List.length_append, List.length_take]
  have : "\n...(truncated)".toList.length = 15 := by decide
  omega

/-- Claim C14 (counterexample). A file of 10001 bytes is read back as 10015 characters:
its first 10000 bytes followed by the 15 characters of the marker, which is more than
10000 characters. -/
theorem read_file_exceeds_limit :
    (List.replicate 10001 'a').length = 10001 ∧
    (read_file (some (List.replicate 10001 'a')) read_file_max).length = 10015 ∧
    ¬ (read_file (some (List.replicate 10001 'a')) read_file_max).length ≤ 10000 := by
  have hlen : (List.replicate 10001 'a').length = 10001 := List.length_replicate _ _
  have h : 10000 < (List.replicate 10001 'a').length := by rw [hlen]; decide
  have hl := (read_file_long _ h).2
  refine ⟨hlen, hl, ?_⟩
  rw [hl]
  decide

/-- Claim C14 (amended). Read-back truncation: `read_file` with the default `max` returns
the content unchanged when it has at most 10000 bytes, and otherwise returns the first
10000 bytes of the content followed by the marker `"\n...(truncated)"`, which is 10015
characters in total. -/
theorem read_file_truncation (c : List Char) :
    (c.length ≤ 10000 → read_file (some c) read_file_max = c) ∧
    (10000 < c.length →
      read_file (some c) read_file_max = c.take 10000 ++ "\n...(truncated)".toList ∧
      (read_file (some c) read_file_max).length = 10015) :=
  ⟨read_file_short c, read_file_long c⟩

/-- A file of two bytes is read back unchanged, and a file of 10001 bytes is read back as
10015 characters. -/
theorem read_file_truncation_witness :
    read_file (some "5\n".toList) read_file_max = "5\n".toList ∧
    (read_file (some (List.replicate 10001 'a')) read_file_max).length = 10015 :=
  ⟨(read_file_truncation "5\n".toList).1 (by decide),
    ((read_file_truncation (List.replicate 10001 'a')).2
      (by rw [List.length_replicate]; decide)).2⟩

/-! ## JSON escaping -/

theorem json_escape_foldl (s : List Char) :
    ∀ acc : List Char,
      s.foldl (fun o c => o ++ json_escape_char c) acc =
        acc ++ (s.map json_escape_char).flatten := by
  induction s with
  | nil => intro acc; simp
  | cons c cs ih =>
    intro acc
    simp only [List.foldl_cons, ih, List.map_cons, List.flatten_cons, List.append_assoc]

theorem json_escape_eq (s : List Char) :
    json_escape s = (s.map json_escape_char).flatten := by
  unfold json_escape
  rw [json_escape_foldl]
  rfl

theorem json_escape_cons (c : Char) (cs : List Char) :
    json_escape (c :: cs) = json_escape_char c ++ json_escape cs := by
  simp only [json_escape_eq, List.map_cons, List.flatten_cons]

theorem char_value_printable (c : Char) (hb : c.toNat < 256) :
    (0x20 ≤ char_value c ∧ char_value c ≤ 0x7E) ↔ (0x20 ≤ c.toNat ∧ c.toNat ≤ 0x7E) := by
  unfold char_value
  rw [Nat.mod_eq_of_lt hb]
  split <;> omega

/-- The output of `json_escape` for one byte: one of the five escapes, standing for the
byte itself, or a single printable character other than the quote and the backslash. -/
theorem json_escape_char_cases (c : Char) (hb : c.toNat < 256) :
    (json_escape_char c ∈ spec_escapes ∧
      ∃ e, json_escape_char c = ['\\', e] ∧ spec_escape_target e = some (spec_shown c)) ∨
    (json_escape_char c = [spec_shown c] ∧ spec_shown c ≠ '"' ∧ spec_shown c ≠ '\\' ∧
      0x20 ≤ (spec_shown c).toNat ∧ (spec_shown c).toNat ≤ 0x7E) := by
  by_cases h1 : c = '"'
  · subst h1; exact Or.inl ⟨by decide, '"', by decide, by decide⟩
  by_cases h2 : c = '\\'
  · subst h2; exact Or.inl ⟨by decide, '\\', by decide, by decide⟩
  by_cases h3 : c = '\n'
  · subst h3; exact Or.inl ⟨by decide, 'n', by decide, by decide⟩
  by_cases h4 : c = '\r'
  · subst h4; exact Or.inl ⟨by decide, 'r', by decide, by decide⟩
  by_cases h5 : c = '\t'
  · subst h5; exact Or.inl ⟨by decide, 't', by decide, by decide⟩
  right
  have hv := char_value_printable c hb
  by_cases hp : 0x20 ≤ c.toNat ∧ c.toNat ≤ 0x7E
  · have hs : spec_shown c = c := by simp [spec_shown, hp]
    rw [hs]
    refine ⟨?_, h1, h2, hp⟩
    simp only [json_escape_char, h1, h2, h3, h4, h5, if_false, hv.mpr hp, and_self, if_true]
  · have hs : spec_shown c = ' ' := by simp only [spec_shown, h3, h4, h5, hp, or_self, if_false]
    rw [hs]
    refine ⟨?_, by decide, by decide, by decide, by decide⟩
    have hnv : ¬ (0x20 ≤ char_value c ∧ char_value c ≤ 0x7E) := fun h => hp (hv.mp h)
    simp only [json_escape_char, h1, h2, h3, h4, h5, if_false, hnv]

theorem spec_json_unescape_plain (c : Char) (rest : List Char) (h1 : c ≠ '"')
    (h2 : c ≠ '\\') (h3 : 0x20 ≤ c.toNat) :
    spec_json_unescape (c :: rest) = (spec_json_unescape rest).map (fun r => c :: r) := by
  have h4 : ¬ c.toNat < 0x20 := by omega
  cases rest with
  | nil => simp [spec_json_unescape, h1, h2, h4]
  | cons e r => simp [spec_json_unescape, h1, h2, h4]

theorem spec_json_unescape_step (c : Char) (hb : c.toNat < 256) (rest : List Char) :
    spec_json_unescape (json_escape_char c ++ rest) =
      (spec_json_unescape rest).map (fun r => spec_shown c :: r) := by
  rcases json_escape_char_cases c hb with ⟨_, e, he, ht⟩ | ⟨hc, h1, h2, h3, _⟩
  · rw [he]
    simp [spec_json_unescape, ht]
  · rw [hc]
    exact spec_json_unescape_plain _ _ h1 h2 h3

theorem spec_json_unescape_escape (s : List Char) (hb : ∀ c ∈ s, c.toNat < 256) :
    spec_json_unescape (json_escape s) = some (s.map spec_shown) := by
  induction s with
  | nil => rfl
  | cons c cs ih =>
    have hc : c.toNat < 256 := hb c (List.mem_cons_self _ _)
    have hcs : ∀ d ∈ cs, d.toNat < 256 := fun d hd => hb d (List.mem_cons_of_mem _ hd)
    rw [json_escape_cons, spec_json_unescape_step c hc, ih hcs]
    rfl

/-- Claim C13. For every byte string `s`, the output of `json_escape` holds only bytes in
`[0x20, 0x7E]`; it is the concatenation, byte by byte of `s`, of pieces that are either one
of the two-character escapes `\"`, `\\`, `\n`, `\r`, `\t` or a single character other than
the quote and the backslash, so that it is a valid body of a JSON string; unescaping it
gives `s` with every byte outside `[0x20, 0x7E]` other than LF, CR and TAB replaced by one
space, and gives `s` itself when `s` holds only printable ASCII, LF, CR and TAB. -/
theorem json_escape_sound (s : List Char) (hb : ∀ c ∈ s, c.toNat < 256) :
    (∀ c ∈ json_escape s, 0x20 ≤ c.toNat ∧ c.toNat ≤ 0x7E) ∧
    (json_escape s = (s.map json_escape_char).flatten ∧
      ∀ c ∈ s, json_escape_char c ∈ spec_escapes ∨
        ∃ d, json_escape_char c = [d] ∧ d ≠ '"' ∧ d ≠ '\\') ∧
    spec_json_unescape (json_escape s) = some (s.map spec_shown) ∧
    ((∀ c ∈ s, c = '\n' ∨ c = '\r' ∨ c = '\t' ∨ (0x20 ≤ c.toNat ∧ c.toNat ≤ 0x7E)) →
      spec_json_unescape (json_escape s) = some s) := by
  refine ⟨?_, ⟨json_escape_eq s, ?_⟩, spec_json_unescape_escape s hb, ?_⟩
  · intro d hd
    rw [json_escape_eq, List.mem_flatten] at hd
    obtain ⟨t, ht, hdt⟩ := hd
    obtain ⟨c, hc, rfl⟩ := List.mem_map.mp ht
    rcases json_escape_char_cases c (hb c hc) with ⟨hm, _⟩ | ⟨he, _, _, h3, h4⟩
    · simp only [spec_escapes, List.mem_cons, List.mem_singleton, List.not_mem_nil,
        or_false] at hm
      rcases hm with hm | hm | hm | hm | hm <;> rw [hm] at hdt <;>
        simp only [List.mem_cons, List.mem_singleton, List.not_mem_nil, or_false] at hdt <;>
        rcases hdt with hdt | hdt <;> rw [hdt] <;> decide
    · rw [he, List.mem_singleton] at hdt
      rw [hdt]
      exact ⟨h3, h4⟩
  · intro c hc
    rcases json_escape_char_cases c (hb c hc) with ⟨hm, _⟩ | ⟨he, h1, h2, _⟩
    · exact Or.inl hm
    · exact Or.inr ⟨_, he, h1, h2⟩
  · intro hp
    rw [spec_json_unescape_escape s hb]
    congr 1
    have : ∀ c ∈ s, spec_shown c = c := by
      intro c hc
      simp [spec_shown, hp c hc]
    calc s.map spec_shown = s.map (fun c => c) := List.map_congr_left this
      _ = s := List.map_id' s

/-- A message with a quote, a backslash, a line feed and a tab: the escaped text is the
JSON body expected, and unescaping it gives the message back; a bell, a byte above the
ASCII range and a delete character are shown as spaces. -/
theorem json_escape_sound_witness :
    json_escape "a\"b\\c\nd\t".toList = "a\\\"b\\\\c\\nd\\t".toList ∧
    spec_json_unescape (json_escape "a\"b\\c\nd\t".toList) = some "a\"b\\c\nd\t".toList ∧
    spec_json_unescape (json_escape [Char.ofNat 7, Char.ofNat 200, Char.ofNat 127, 'x']) =
      some "   x".toList :=
  ⟨by decide,
    (json_escape_sound "a\"b\\c\nd\t".toList (by decide)).2.2.2 (by decide),
    (json_escape_sound [Char.ofNat 7, Char.ofNat 200, Char.ofNat 127, 'x']
      (by decide)).2.2.1⟩

/-! ## The aggregator of `main` -/

theorem pool_complete_eq (work : Nat → JudgeOutcome) (order : List Nat) :
    ∀ (handles : Nat → Option JudgeOutcome) (i : Nat),
      pool_complete work order handles i =
        if i ∈ order then some (work i) else handles i := by
  induction order with
  | nil => intro handles i; simp [pool_complete]
  | cons j rest ih =>
    intro handles i
    simp only [pool_complete, ih, List.mem_cons]
    by_cases h1 : i ∈ rest
    · simp [h1]
    · by_cases h2 : i = j
      · simp [h1, h2]
      · simp [h1, h2]

theorem judge_archive_id (save : String) (id : Int) (res : JudgeResult) :
    (judge_archive save id res).1.id = res.id := by
  unfold judge_archive
  split
  · split <;> rfl
  · rfl

theorem judge_classify_id (id : Int) (std_v : String) (d a u : List Char) (r3 : RunResult)
    (equal : Bool) : (judge_classify id std_v d a u r3 equal).id = id := by
  unfold judge_classify
  repeat (first | rfl | split)

/-- Every result that `judge` returns carries the id that `judge` was called with, and its
result string is the name of its `error_type`. -/
theorem judge_result_id_name (id : Int) (std_v save : String) (env : JudgeEnv)
    (r : JudgeResult) (hr : (judge id std_v save env).outcome = JudgeOutcome.returned r) :
    r.id = id ∧ r.result = r.error_type.name := by
  have hdir := judge_dir_created_of_returned id std_v save env r hr
  unfold judge at hr
  simp only [hdir, Bool.not_true, Bool.false_eq_true, if_false] at hr
  split at hr
  · cases JudgeOutcome.returned.inj hr; exact ⟨rfl, rfl⟩
  split at hr
  · cases JudgeOutcome.returned.inj hr; exact ⟨rfl, rfl⟩
  split at hr
  · cases JudgeOutcome.returned.inj hr; exact ⟨rfl, rfl⟩
  split at hr
  · cases JudgeOutcome.returned.inj hr; exact ⟨rfl, rfl⟩
  split at hr
  · cases JudgeOutcome.returned.inj hr; exact ⟨rfl, rfl⟩
  split at hr
  · cases JudgeOutcome.returned.inj hr; exact ⟨rfl, rfl⟩
  cases JudgeOutcome.returned.inj hr
  refine ⟨?_, ?_⟩
  · rw [judge_archive_id, judge_classify_id]
  · rw [(judge_archive_keeps _ _ _).1, (judge_archive_keeps _ _ _).2.1]
    exact judge_classify_name _ _ _ _ _ _ _

theorem collect_done (handles : Nat → Option JudgeOutcome) (is : List Nat) :
    ∀ (rs : List JudgeResult) (cnt : List Nat) (rs2 : List JudgeResult) (cnt2 : List Nat),
      collect handles is rs cnt = Collected.done rs2 cnt2 →
      ∃ new, rs2 = rs ++ new ∧
        cnt2 = new.foldl (fun c r => tally c r.error_type) cnt ∧
        List.Forall₂ (fun i r => handles i = some (JudgeOutcome.returned r)) is new := by
  induction is with
  | nil =>
    intro rs cnt rs2 cnt2 h
    simp only [collect, Collected.done.injEq] at h
    exact ⟨[], by simp [h.1], by simp [h.2], List.Forall₂.nil⟩
  | cons i rest ih =>
    intro rs cnt rs2 cnt2 h
    simp only [collect] at h
    split at h
    · exact absurd h (by simp)
    · exact absurd h (by simp)
    · rename_i r hi
      obtain ⟨new, h1, h2, h3⟩ := ih _ _ _ _ h
      exact ⟨r :: new, by simp [h1], by simp [h2], List.Forall₂.cons hi h3⟩

theorem collect_of_returned (handles : Nat → Option JudgeOutcome) (is : List Nat)
    (h : ∀ i ∈ is, ∃ r, handles i = some (JudgeOutcome.returned r)) :
    ∀ (rs : List JudgeResult) (cnt : List Nat),
      ∃ rs2 cnt2, collect handles is rs cnt = Collected.done rs2 cnt2 := by
  induction is with
  | nil => intro rs cnt; exact ⟨rs, cnt, rfl⟩
  | cons i rest ih =>
    intro rs cnt
    obtain ⟨r, hr⟩ := h i (List.mem_cons_self _ _)
    simp only [collect, hr]
    exact ih (fun j hj => h j (List.mem_cons_of_mem _ hj)) _ _

theorem tally_foldl (rs : List JudgeResult) :
    ∀ a0 a1 a2 a3 a4 a5 a6 : Nat,
      rs.foldl (fun c r => tally c r.error_type) [a0, a1, a2, a3, a4, a5, a6] =
        [a0 + rs.countP (fun r => r.error_type = ErrorType.AC),
         a1 + rs.countP (fun r => r.error_type = ErrorType.WA),
         a2 + rs.countP (fun r => r.error_type = ErrorType.RE),
         a3 + rs.countP (fun r => r.error_type = ErrorType.TLE),
         a4 + rs.countP (fun r => r.error_type = ErrorType.MLE),
         a5 + rs.countP (fun r => r.error_type = ErrorType.CE),
         a6 + rs.countP (fun r => r.error_type = ErrorType.UKE)] := by
  induction rs with
  | nil => intro a0 a1 a2 a3 a4 a5 a6; simp
  | cons r rest ih =>
    intro a0 a1 a2 a3 a4 a5 a6
    simp only [List.foldl_cons, List.countP_cons]
    cases he : r.error_type
    all_goals
      first
      | (rw [show tally [a0, a1, a2, a3, a4, a5, a6] ErrorType.AC =
            [a0 + 1, a1, a2, a3, a4, a5, a6] from rfl, ih]
         simp
         omega)
      | (rw [show tally [a0, a1, a2, a3, a4, a5, a6] ErrorType.WA =
            [a0, a1 + 1, a2, a3, a4, a5, a6] from rfl, ih]
         simp
         omega)
      | (rw [show tally [a0, a1, a2, a3, a4, a5, a6] ErrorType.RE =
            [a0, a1, a2 + 1, a3, a4, a5, a6] from rfl, ih]
         simp
         omega)
      | (rw [show tally [a0, a1, a2, a3, a4, a5, a6] ErrorType.TLE =
            [a0, a1, a2, a3 + 1, a4, a5, a6] from rfl, ih]
         simp
         omega)
      | (rw [show tally [a0, a1, a2, a3, a4, a5, a6] ErrorType.MLE =
            [a0, a1, a2, a3, a4 + 1, a5, a6] from rfl, ih]
         simp
         omega)
      | (rw [show tally [a0, a1, a2, a3, a4, a5, a6] ErrorType.CE =
            [a0, a1, a2, a3, a4, a5 + 1, a6] from rfl, ih]
         simp
         omega)
      | (rw [show tally [a0, a1, a2, a3, a4, a5, a6] ErrorType.UKE =
            [a0, a1, a2, a3, a4, a5, a6 + 1] from rfl, ih]
         simp
         omega)

theorem countP_error_type_sum (rs : List JudgeResult) :
    rs.countP (fun r => r.error_type = ErrorType.AC) +
    rs.countP (fun r => r.error_type = ErrorType.WA) +
    rs.countP (fun r => r.error_type = ErrorType.RE) +
    rs.countP (fun r => r.error_type = ErrorType.TLE) +
    rs.countP (fun r => r.error_type = ErrorType.MLE) +
    rs.countP (fun r => r.error_type = ErrorType.CE) +
    rs.countP (fun r => r.error_type = ErrorType.UKE) = rs.length := by
  induction rs with
  | nil => rfl
  | cons r rest ih =>
    simp only [List.countP_cons, List.length_cons]
    cases he : r.error_type <;> simp <;> omega

theorem ErrorType.name_injective (e1 e2 : ErrorType) (h : e1.name = e2.name) : e1 = e2 := by
  cases e1 <;> cases e2 <;> first | rfl | exact absurd h (by decide)

theorem countP_result_eq (rs : List JudgeResult) (e : ErrorType)
    (h : ∀ r ∈ rs, r.result = r.error_type.name) :
    rs.countP (fun r => r.error_type = e) = rs.countP (fun r => r.result = e.name) := by
  apply List.countP_congr
  intro r hr
  simp only [decide_eq_true_eq]
  constructor
  · intro he
    rw [h r hr, he]
  · intro hn
    rw [h r hr] at hn
    exact ErrorType.name_injective _ _ hn

theorem judged_ids (std_v save : String) (envs : Nat → JudgeEnv) (order : List Nat)
    (is : List Nat) (rs : List JudgeResult)
    (h : List.Forall₂ (fun i r =>
      pool_complete (fun i : Nat => (judge (Int.ofNat i) std_v save (envs i)).outcome) order
        (fun _ => none) i = some (JudgeOutcome.returned r)) is rs) :
    rs.map (fun r => r.id) = is.map Int.ofNat ∧
    (∀ r ∈ rs, r.result = r.error_type.name) ∧ rs.length = is.length := by
  induction h with
  | nil => simp
  | @cons i r is2 rs2 hir _ ih =>
    rw [pool_complete_eq] at hir
    have hw : (judge (Int.ofNat i) std_v save (envs i)).outcome = JudgeOutcome.returned r := by
      split at hir
      · exact Option.some.inj hir
      · exact absurd hir (by simp)
    have hj := judge_result_id_name _ _ _ _ _ hw
    refine ⟨?_, ?_, ?_⟩
    · simp only [List.map_cons, hj.1, ih.1]
    · intro r2 hr2
      rcases List.mem_cons.mp hr2 with h2 | h2
      · rw [h2]; exact hj.2
      · exact ih.2.1 r2 h2
    · simp only [List.length_cons, ih.2.2]

/-- What a printed report holds: the results of the tasks in the order of submission and
the tallies of their verdicts. -/
theorem main_dispatch_reported (k : Nat) (std_v : String) (time mem : Int) (save : String)
    (envs : Nat → JudgeEnv) (order : List Nat) (rep : Report)
    (hm : main_dispatch k std_v time mem save envs order = MainOutcome.reported rep) :
    rep.total = k ∧
    rep.results.map (fun r => r.id) = (List.range k).map Int.ofNat ∧
    (∀ r ∈ rep.results, r.result = r.error_type.name) ∧
    rep.results.length = k ∧
    rep.ac = rep.results.countP (fun r => r.error_type = ErrorType.AC) ∧
    rep.wa = rep.results.countP (fun r => r.error_type = ErrorType.WA) ∧
    rep.re = rep.results.countP (fun r => r.error_type = ErrorType.RE) ∧
    rep.tle = rep.results.countP (fun r => r.error_type = ErrorType.TLE) ∧
    rep.mle = rep.results.countP (fun r => r.error_type = ErrorType.MLE) ∧
    rep.ce = rep.results.countP (fun r => r.error_type = ErrorType.CE) ∧
    rep.uke = rep.results.countP (fun r => r.error_type = ErrorType.UKE) := by
  unfold main_dispatch at hm
  simp only at hm
  split at hm
  · exact absurd hm (by simp)
  · exact absurd hm (by simp)
  · rename_i rs cnt hc
    obtain ⟨new, h1, h2, h3⟩ := collect_done _ _ _ _ _ _ hc
    have hj := judged_ids std_v save envs order _ _ h3
    simp only [List.nil_append] at h1
    subst h1
    have hcnt : cnt = [0 + rs.countP (fun r => r.error_type = ErrorType.AC),
         0 + rs.countP (fun r => r.error_type = ErrorType.WA),
         0 + rs.countP (fun r => r.error_type = ErrorType.RE),
         0 + rs.countP (fun r => r.error_type = ErrorType.TLE),
         0 + rs.countP (fun r => r.error_type = ErrorType.MLE),
         0 + rs.countP (fun r => r.error_type = ErrorType.CE),
         0 + rs.countP (fun r => r.error_type = ErrorType.UKE)] := by
      rw [h2]
      exact tally_foldl rs 0 0 0 0 0 0 0
    cases MainOutcome.reported.inj hm
    rw [hcnt]
    simp only [List.length_range] at hj
    refine ⟨rfl, hj.1, hj.2.1, hj.2.2, ?_, ?_, ?_, ?_, ?_, ?_, ?_⟩ <;> simp

/-- When every task finds its directory created and every task completes, `main` prints
a report. -/
theorem main_dispatch_reports (k : Nat) (std_v : String) (time mem : Int) (save : String)
    (envs : Nat → JudgeEnv) (order : List Nat)
    (hdir : ∀ i, i < k → (envs i).dir_created = true)
    (hall : ∀ i, i < k → i ∈ order) :
    ∃ rep, main_dispatch k std_v time mem save envs order = MainOutcome.reported rep := by
  unfold main_dispatch
  simp only
  obtain ⟨rs, cnt, hc⟩ := collect_of_returned
    (pool_complete (fun i : Nat => (judge (Int.ofNat i) std_v save (envs i)).outcome) order
      (fun _ => none)) (List.range k)
    (by
      intro i hi
      have hik : i < k := List.mem_range.mp hi
      obtain ⟨r, hr⟩ := judge_returns (Int.ofNat i) std_v save (envs i) (hdir i hik)
      refine ⟨r, ?_⟩
      rw [pool_complete_eq, if_pos (hall i hik), hr])
    [] (List.replicate 7 0)
  rw [hc]
  exact ⟨_, rfl⟩

/-- The report does not depend on the order in which the tasks complete. -/
theorem main_dispatch_order (k : Nat) (std_v : String) (time mem : Int) (save : String)
    (envs : Nat → JudgeEnv) (order1 order2 : List Nat)
    (h1 : order1.Perm (List.range k)) (h2 : order2.Perm (List.range k)) :
    main_dispatch k std_v time mem save envs order1 =
      main_dispatch k std_v time mem save envs order2 := by
  have hh : pool_complete (fun i : Nat => (judge (Int.ofNat i) std_v save (envs i)).outcome)
        order1 (fun _ => none) =
      pool_complete (fun i : Nat => (judge (Int.ofNat i) std_v save (envs i)).outcome)
        order2 (fun _ => none) := by
    funext i
    rw [pool_complete_eq, pool_complete_eq]
    have : i ∈ order1 ↔ i ∈ order2 := by rw [h1.mem_iff, h2.mem_iff]
    by_cases hi : i ∈ order1
    · rw [if_pos hi, if_pos (this.mp hi)]
    · rw [if_neg hi, if_neg (fun h => hi (this.mpr h))]
  unfold main_dispatch
  simp only [hh]

/-- Claim C11. Every report that `main` prints satisfies
`ac + wa + re + tle + mle + ce + uke == total == k`; each counter is the number of results
whose printed result string is that verdict, because the index `error_type` of the tally
is in `0..6` and agrees with the result string of every result. A report is printed
whenever every task finds its isolation directory created and every task completes. -/
theorem report_counts_sum (k : Nat) (std_v : String) (time mem : Int) (save : String)
    (envs : Nat → JudgeEnv) (order : List Nat) :
    (∀ rep, main_dispatch k std_v time mem save envs order = MainOutcome.reported rep →
      rep.ac + rep.wa + rep.re + rep.tle + rep.mle + rep.ce + rep.uke = rep.total ∧
      rep.total = k ∧
      rep.ac = rep.results.countP (fun r => r.result = "AC") ∧
      rep.wa = rep.results.countP (fun r => r.result = "WA") ∧
      rep.re = rep.results.countP (fun r => r.result = "RE") ∧
      rep.tle = rep.results.countP (fun r => r.result = "TLE") ∧
      rep.mle = rep.results.countP (fun r => r.result = "MLE") ∧
      rep.ce = rep.results.countP (fun r => r.result = "CE") ∧
      rep.uke = rep.results.countP (fun r => r.result = "UKE") ∧
      ∀ r ∈ rep.results, r.error_type.toNat ≤ 6 ∧ r.result = r.error_type.name) ∧
    ((∀ i, i < k → (envs i).dir_created = true) → order.Perm (List.range k) →
      ∃ rep, main_dispatch k std_v time mem save envs order = MainOutcome.reported rep) := by
  refine ⟨fun rep hm => ?_, fun hdir hperm => ?_⟩
  · obtain ⟨ht, _, hn, hl, h0, h1, h2, h3, h4, h5, h6⟩ :=
      main_dispatch_reported k std_v time mem save envs order rep hm
    refine ⟨?_, ht, ?_, ?_, ?_, ?_, ?_, ?_, ?_, ?_⟩
    · rw [h0, h1, h2, h3, h4, h5, h6, countP_error_type_sum, ht, hl]
    · rw [h0]; exact countP_result_eq _ ErrorType.AC hn
    · rw [h1]; exact countP_result_eq _ ErrorType.WA hn
    · rw [h2]; exact countP_result_eq _ ErrorType.RE hn
    · rw [h3]; exact countP_result_eq _ ErrorType.TLE hn
    · rw [h4]; exact countP_result_eq _ ErrorType.MLE hn
    · rw [h5]; exact countP_result_eq _ ErrorType.CE hn
    · rw [h6]; exact countP_result_eq _ ErrorType.UKE hn
    · intro r hr
      refine ⟨?_, hn r hr⟩
      cases r.error_type <;> decide
  · exact main_dispatch_reports k std_v time mem save envs order hdir
      (fun i hi => hperm.mem_iff.mpr (List.mem_range.mpr hi))

/-- Three tasks that complete in the order 2, 0, 1 and are judged `AC`, `WA` and `CE`: the
report is printed, and its counters add up to 3. -/
theorem report_counts_sum_witness :
    main_dispatch 3 "c++17" 2000 512 "arch" envs_three [2, 0, 1] =
      MainOutcome.reported report_three ∧
    report_three.ac + report_three.wa + report_three.re + report_three.tle +
      report_three.mle + report_three.ce + report_three.uke = report_three.total ∧
    report_three.total = 3 ∧
    ∃ rep, main_dispatch 3 "c++17" 2000 512 "arch" envs_three [2, 0, 1] =
      MainOutcome.reported rep :=
  ⟨by decide,
    ((report_counts_sum 3 "c++17" 2000 512 "arch" envs_three [2, 0, 1]).1 report_three
      (by decide)).1,
    ((report_counts_sum 3 "c++17" 2000 512 "arch" envs_three [2, 0, 1]).1 report_three
      (by decide)).2.1,
    (report_counts_sum 3 "c++17" 2000 512 "arch" envs_three [2, 0, 1]).2 (by decide)
      (by decide)⟩

/-- Claim C12. The results array of every report that `main` prints has exactly `k`
entries, and the entry at position `i` has id `i`: `judge` returns the id it was called
with on every path that returns, and `main` awaits the handles in the order of submission.
The outcome of `main` is the same for every order in which the `k` tasks complete, and a
report is printed whenever every task finds its isolation directory created. -/
theorem results_in_submission_order (k : Nat) (std_v : String) (time mem : Int)
    (save : String) (envs : Nat → JudgeEnv) (order : List Nat) :
    (∀ rep, main_dispatch k std_v time mem save envs order = MainOutcome.reported rep →
      rep.results.length = k ∧
      rep.results.map (fun r => r.id) = (List.range k).map Int.ofNat) ∧
    (∀ order2, order.Perm (List.range k) → order2.Perm (List.range k) →
      main_dispatch k std_v time mem save envs order =
        main_dispatch k std_v time mem save envs order2) ∧
    (∀ (id : Int) (env : JudgeEnv) (r : JudgeResult),
      (judge id std_v save env).outcome = JudgeOutcome.returned r → r.id = id) ∧
    ((∀ i, i < k → (envs i).dir_created = true) → order.Perm (List.range k) →
      ∃ rep, main_dispatch k std_v time mem save envs order = MainOutcome.reported rep) := by
  refine ⟨fun rep hm => ?_, fun order2 h1 h2 => ?_, fun id env r hr => ?_,
    fun hdir hperm => ?_⟩
  · have h := main_dispatch_reported k std_v time mem save envs order rep hm
    exact ⟨h.2.2.2.1, h.2.1⟩
  · exact main_dispatch_order k std_v time mem save envs order order2 h1 h2
  · exact (judge_result_id_name id std_v save env r hr).1
  · exact main_dispatch_reports k std_v time mem save envs order hdir
      (fun i hi => hperm.mem_iff.mpr (List.mem_range.mpr hi))

/-- Three tasks that complete in the order 2, 0, 1: the report lists the results with the
ids 0, 1, 2, and it is the report of the completion order 1, 2, 0 as well. -/
theorem results_in_submission_order_witness :
    report_three.results.length = 3 ∧
    report_three.results.map (fun r => r.id) = [0, 1, 2] ∧
    main_dispatch 3 "c++17" 2000 512 "arch" envs_three [2, 0, 1] =
      main_dispatch 3 "c++17" 2000 512 "arch" envs_three [1, 2, 0] :=
  ⟨((results_in_submission_order 3 "c++17" 2000 512 "arch" envs_three [2, 0, 1]).1
      report_three (by decide)).1,
    ((results_in_submission_order 3 "c++17" 2000 512 "arch" envs_three [2, 0, 1]).1
      report_three (by decide)).2,
    (results_in_submission_order 3 "c++17" 2000 512 "arch" envs_three [2, 0, 1]).2.1
      [1, 2, 0] (by decide) (by decide)⟩

/-! ## Teardown -/

theorem stage_copies_no_remove (env : JudgeEnv) (d : String) :
    Event.remove_directory d ∉ (stage_copies env).2 := by
  unfold stage_copies
  split
  · simp
  · split <;> simp

theorem logger_no_remove (b : Bool) (x d : String) :
    Event.remove_directory d ∉ logger_open b x ∧ Event.remove_directory d ∉ logger_log b x ∧
    Event.remove_directory d ∉ logger_close b x := by
  cases b <;> simp [logger_open, logger_log, logger_close]

theorem judge_archive_no_remove (save : String) (id : Int) (res : JudgeResult) (d : String) :
    Event.remove_directory d ∉ (judge_archive save id res).2 := by
  unfold judge_archive save_files
  split
  · split <;> split <;> simp
  · simp

/-- On every path on which `judge` returns, `remove_directory` is called exactly once, on
the directory of the task, and the only calls after it are those of the destructor of the
`Logger`: when the log file is open, it is written and closed after the removal. -/
theorem judge_trace_end (id : Int) (std_v save : String) (env : JudgeEnv)
    (hdir : env.dir_created = true) :
    ∃ t, (judge id std_v save env).trace =
        t ++ [Event.remove_directory env.dir] ++
          logger_close env.log_opened (log_path env.dir id) ∧
      ∀ d, Event.remove_directory d ∉ t := by
  have hc := stage_copies_no_remove env
  have hl := logger_no_remove env.log_opened
  have ha := judge_archive_no_remove save id
  unfold judge
  simp only [hdir, Bool.not_true, Bool.false_eq_true, if_false, judge_return]
  split
  · exact ⟨_, rfl, fun d => by simp [hc d, hl]⟩
  split
  · exact ⟨_, rfl, fun d => by simp [hc d, hl]⟩
  split
  · exact ⟨_, rfl, fun d => by simp [hc d, hl]⟩
  split
  · exact ⟨_, rfl, fun d => by simp [hc d, hl]⟩
  split
  · exact ⟨_, rfl, fun d => by simp [hc d, hl]⟩
  split
  · exact ⟨_, rfl, fun d => by simp [hc d, hl]⟩
  refine ⟨_, rfl, fun d => ?_⟩
  split <;> simp [hc d, hl, ha]

/-- Claim C15 (defect of the code). On the path of an accepted task, `remove_directory` is
called once, but it is not the last action on the directory: the log file of the task,
opened by the constructor of `Logger` in that directory, is still open during the removal,
and the destructor of `Logger` writes the end banner to it and closes it afterwards. The
same three calls end the path of a failed copy (the `catch` block) and the early return
of a compile error. -/
theorem logger_outlives_remove_directory :
    (judge 0 "c++17" "" (env_ok "5\n".toList "5\n".toList)).trace =
      [Event.mkdir "T\\judge_0_1_abcdefgh",
       Event.log_open "T\\judge_0_1_abcdefgh\\task_0_log.txt",
       Event.log "Judge start in T\\judge_0_1_abcdefgh",
       Event.copy_file "T\\judge_0_1_abcdefgh\\make.cpp",
       Event.copy_file "T\\judge_0_1_abcdefgh\\ans.cpp",
       Event.copy_file "T\\judge_0_1_abcdefgh\\unknown.cpp",
       Event.compile "make", Event.compile "ans", Event.compile "unknown",
       Event.run "make",
       Event.read_file "T\\judge_0_1_abcdefgh\\data.in",
       Event.run "ans",
       Event.run "unknown",
       Event.read_file "T\\judge_0_1_abcdefgh\\data.ans",
       Event.read_file "T\\judge_0_1_abcdefgh\\data.out",
       Event.compare_files "T\\judge_0_1_abcdefgh\\data.ans" "T\\judge_0_1_abcdefgh\\data.out",
       Event.remove_directory "T\\judge_0_1_abcdefgh",
       Event.log "=== End ===",
       Event.log_close "T\\judge_0_1_abcdefgh\\task_0_log.txt"] ∧
    (judge 0 "c++17" "" (env_copy_fails)).trace =
      [Event.mkdir "T\\judge_0_1_abcdefgh",
       Event.log_open "T\\judge_0_1_abcdefgh\\task_0_log.txt",
       Event.log "Judge start in T\\judge_0_1_abcdefgh",
       Event.copy_file "T\\judge_0_1_abcdefgh\\make.cpp",
       Event.copy_file "T\\judge_0_1_abcdefgh\\ans.cpp",
       Event.log "Exception: Copy failed",
       Event.remove_directory "T\\judge_0_1_abcdefgh",
       Event.log "=== End ===",
       Event.log_close "T\\judge_0_1_abcdefgh\\task_0_log.txt"] ∧
    (judge 0 "c++17" "" env_make_ce).trace.drop 7 =
      [Event.remove_directory "T\\judge_0_1_abcdefgh",
       Event.log "=== End ===",
       Event.log_close "T\\judge_0_1_abcdefgh\\task_0_log.txt"] := by
  refine ⟨by decide, by decide, by decide⟩

/-! ## The comparator of `judge_parallel.cpp` -/

theorem spec_lines_from_readline (buf : List Char) :
    ∀ cur : List Char,
      spec_lines_from cur buf =
        match readline buf with
        | (line, some rest) => (cur.reverse ++ line) :: spec_lines_from [] rest
        | (line, none) =>
          if (cur.reverse ++ line).isEmpty then [] else [cur.reverse ++ line] := by
  induction buf with
  | nil =>
    intro cur
    cases cur <;> simp [spec_lines_from, readline]
  | cons c cs ih =>
    intro cur
    by_cases hc : c = '\n'
    · simp [spec_lines_from, readline, hc]
    · simp only [spec_lines_from, readline, hc, if_false]
      rw [ih (c :: cur)]
      rcases hr : readline cs with ⟨line, _ | rest⟩ <;> simp

theorem spec_lines_readline (buf : List Char) :
    spec_lines buf =
      match readline buf with
      | (line, some rest) => line :: spec_lines rest
      | (line, none) => if line.isEmpty then [] else [line] := by
  unfold spec_lines
  rw [spec_lines_from_readline]
  rcases readline buf with ⟨line, _ | rest⟩ <;> simp

/-- The reading loop of `compare_outputs` delivers the trimmed lines of the file. -/
theorem read_trimmed_lines_good (fuel : Nat) :
    ∀ (buf line : List Char) (l : List (List Char)), buf.length < fuel →
      ∃ file2 line2,
        read_trimmed_lines fuel { buf := buf, eofbit := false, failbit := false } line l =
          some (file2, line2, l ++ (spec_lines buf).map trim_trailing) := by
  induction fuel with
  | zero => intro buf line l h; omega
  | succ n ih =>
    intro buf line l h
    rw [spec_lines_readline]
    simp only [read_trimmed_lines, getline, ifstream.good, ifstream.ok, Bool.not_false,
      Bool.and_self, if_true]
    rcases hr : readline buf with ⟨ln, _ | rest⟩
    · simp only
      by_cases he : ln.isEmpty = true
      · simp [he]
      · have he2 : ln.isEmpty = false := by simpa using he
        simp only [he2, Bool.not_false, if_true, Bool.false_eq_true, if_false, List.map_cons,
          List.map_nil]
        cases n with
        | zero =>
          exfalso
          have : buf = [] := by
            cases buf with
            | nil => rfl
            | cons c cs => simp at h
          rw [this] at hr
          simp [readline] at hr
          rw [hr] at he2
          simp at he2
        | succ m =>
          simp [read_trimmed_lines, getline, ifstream.good, ifstream.ok]
    · simp only [Bool.not_false, if_true, List.map_cons]
      have hlt := readline_some_length buf ln rest hr
      obtain ⟨f2, l2, h2⟩ := ih rest ln (l ++ [trim_trailing ln]) (by omega)
      rw [h2]
      exact ⟨f2, l2, by simp⟩

theorem spec_strip_cons (c : Char) (cs : List Char) :
    spec_strip (c :: cs) =
      if spec_strip cs = [] then
        (if c = ' ' ∨ c = '\t' ∨ c = '\r' ∨ c = '\n' then [] else [c])
      else c :: spec_strip cs := by
  unfold spec_strip
  rw [List.reverse_cons, List.dropWhile_append]
  generalize List.dropWhile (fun c => decide (c = ' ' ∨ c = '\t' ∨ c = '\r' ∨ c = '\n'))
      cs.reverse = X
  cases X with
  | nil =>
    simp only [List.isEmpty_nil, if_true, List.reverse_nil]
    by_cases hp : c = ' ' ∨ c = '\t' ∨ c = '\r' ∨ c = '\n'
    · simp [List.dropWhile, hp]
    · simp [List.dropWhile, hp]
  | cons x xs =>
    simp

theorem find_last_not_of_spec_strip (cs : List Char) :
    match find_last_not_of trim_set cs with
    | none => spec_strip cs = []
    | some e => spec_strip cs = cs.take (e + 1) ∧ spec_strip cs ≠ [] := by
  induction cs with
  | nil => simp [find_last_not_of, spec_strip]
  | cons c cs ih =>
    rw [spec_strip_cons]
    simp only [find_last_not_of]
    cases hf : find_last_not_of trim_set cs with
    | none =>
      rw [hf] at ih
      simp only at ih
      simp only [ih, if_true]
      by_cases hp : c = ' ' ∨ c = '\t' ∨ c = '\r' ∨ c = '\n'
      · have hm : c ∈ trim_set := by simpa [trim_set] using hp
        simp [hm, hp]
      · have hm : c ∉ trim_set := by simpa [trim_set] using hp
        simp [hm, hp]
    | some i =>
      rw [hf] at ih
      simp only at ih
      simp only [ih.2, if_false]
      refine ⟨?_, by simp⟩
      rw [ih.1]
      rfl

/-- The function `trim_trailing` strips the trailing blanks, tabs, carriage returns and
line feeds of a line, as the specification words it. -/
theorem trim_trailing_eq_spec_strip (cs : List Char) : trim_trailing cs = spec_strip cs := by
  have h := find_last_not_of_spec_strip cs
  unfold trim_trailing
  cases hf : find_last_not_of trim_set cs with
  | none => rw [hf] at h; exact h.symm
  | some e => rw [hf] at h; exact h.1.symm

theorem pop_empty_back_eq (fuel : Nat) :
    ∀ l : List (List Char), l.length < fuel →
      pop_empty_back fuel l = some (spec_drop_trailing_empty l) := by
  induction fuel with
  | zero => intro l h; omega
  | succ n ih =>
    intro l h
    rcases List.eq_nil_or_concat l with hl | ⟨L, b, hl⟩
    · subst hl
      simp [pop_empty_back, spec_drop_trailing_empty]
    · rw [List.concat_eq_append] at hl
      subst hl
      simp only [pop_empty_back, List.getLast?_concat, List.dropLast_concat]
      have hlen : L.length < n := by
        simp only [List.length_append, List.length_singleton] at h
        omega
      by_cases hb : b.isEmpty = true
      · simp only [hb, if_true, ih L hlen]
        simp [spec_drop_trailing_empty, List.dropWhile, hb]
      · simp only [hb, Bool.false_eq_true, if_false]
        simp [spec_drop_trailing_empty, List.dropWhile, hb]

theorem lines_same_eq (l1 l2 : List (List Char)) (hlen : l1.length = l2.length) (n : Nat) :
    ∀ i, i + n = l1.length → lines_same l1 l2 n i = decide (l1.drop i = l2.drop i) := by
  induction n with
  | zero =>
    intro i hi
    have h1 : l1.drop i = [] := List.drop_eq_nil_of_le (by omega)
    have h2 : l2.drop i = [] := List.drop_eq_nil_of_le (by omega)
    simp [lines_same, h1, h2]
  | succ m ih =>
    intro i hi
    have hi1 : i < l1.length := by omega
    have hi2 : i < l2.length := by omega
    have e1 : l1.drop i = l1[i] :: l1.drop (i + 1) := List.drop_eq_getElem_cons hi1
    have e2 : l2.drop i = l2[i] :: l2.drop (i + 1) := List.drop_eq_getElem_cons hi2
    simp only [lines_same, List.getD_eq_getElem _ _ hi1, List.getD_eq_getElem _ _ hi2]
    rw [e1, e2]
    by_cases he : l1[i] = l2[i]
    · simp only [he, ne_eq, not_true_eq_false, if_false]
      rw [ih (i + 1) (by omega)]
      apply decide_eq_decide.mpr
      simp only [List.cons.injEq, true_and]
    · simp only [ne_eq, he, not_false_eq_true, if_true, List.cons.injEq, false_and,
        decide_False]

/-- One pass of the retry loop on two readable files: the normal forms of the
specification are computed and compared. -/
theorem compare_attempt_eq (c1 c2 : List Char) :
    compare_attempt (some c1) (some c2) =
      some (if (spec_normalise c1).length ≠ (spec_normalise c2).length then Attempt.ret false
        else if spec_normalise c1 = spec_normalise c2 then Attempt.ret true
        else Attempt.again) := by
  have ht : trim_trailing = spec_strip := funext trim_trailing_eq_spec_strip
  obtain ⟨s1, line1, h1⟩ := read_trimmed_lines_good (c1.length + 1) c1 [] []
    (Nat.lt_succ_self _)
  obtain ⟨s2, line2, h2⟩ := read_trimmed_lines_good (c2.length + 1) c2 line1 []
    (Nat.lt_succ_self _)
  simp only [List.nil_append, ht] at h1 h2
  have p1 := pop_empty_back_eq (((spec_lines c1).map spec_strip).length + 1)
    ((spec_lines c1).map spec_strip) (Nat.lt_succ_self _)
  have p2 := pop_empty_back_eq (((spec_lines c2).map spec_strip).length + 1)
    ((spec_lines c2).map spec_strip) (Nat.lt_succ_self _)
  simp only [compare_attempt, ifstream.open, ifstream.ok, Bool.not_false, Bool.not_true,
    Bool.or_self, Bool.false_eq_true, if_false, h1, h2, p1, p2]
  change (if (spec_normalise c1).length ≠ (spec_normalise c2).length then
      some (Attempt.ret false)
    else if lines_same (spec_normalise c1) (spec_normalise c2) (spec_normalise c1).length 0
        = true then some (Attempt.ret true)
    else some Attempt.again) = _
  by_cases hl : (spec_normalise c1).length = (spec_normalise c2).length
  · rw [lines_same_eq _ _ hl _ 0 (by omega)]
    simp only [hl, ne_eq, not_true_eq_false, if_false, List.drop_zero, decide_eq_true_eq]
    split <;> rfl
  · simp only [ne_eq, hl, not_false_eq_true, if_true]

theorem compare_outputs_loop_const (c1 c2 : List Char) (n : Nat) :
    ∀ retry, compare_outputs_loop (fun _ => some c1) (fun _ => some c2) (n + 1) retry =
      some (spec_equal c1 c2) := by
  induction n with
  | zero =>
    intro retry
    simp only [compare_outputs_loop, compare_attempt_eq, spec_equal]
    by_cases hl : (spec_normalise c1).length = (spec_normalise c2).length
    · by_cases he : spec_normalise c1 = spec_normalise c2
      · simp [he]
      · simp [hl, he]
    · have he : spec_normalise c1 ≠ spec_normalise c2 := fun h => hl (by rw [h])
      simp [hl, he]
  | succ m ih =>
    intro retry
    rw [compare_outputs_loop]
    simp only [compare_attempt_eq]
    by_cases hl : (spec_normalise c1).length = (spec_normalise c2).length
    · by_cases he : spec_normalise c1 = spec_normalise c2
      · simp [he, spec_equal]
      · simp only [hl, ne_eq, not_true_eq_false, if_false, he]
        exact ih (retry + 1)
    · have he : spec_normalise c1 ≠ spec_normalise c2 := fun h => hl (by rw [h])
      simp [hl, he, spec_equal]

/-- Claim C16. In the parallel-only binary, for two files that can be opened and whose
contents do not change during the call, `compare_outputs` returns (its loops end), and it
returns `true` if and only if the two line sequences are identical after stripping the
trailing `' '`, `'\t'`, `'\r'`, `'\n'` of every line and discarding the trailing empty
lines of each sequence; the retry loop does not change the answer. -/
theorem compare_outputs_eq_spec (c1 c2 : List Char) :
    compare_outputs_run (fun _ => some c1) (fun _ => some c2) = some (spec_equal c1 c2) ∧
    (compare_outputs (fun _ => some c1) (fun _ => some c2) = true ↔
      spec_normalise c1 = spec_normalise c2) ∧
    (∀ n retry, compare_outputs_loop (fun _ => some c1) (fun _ => some c2) (n + 1) retry =
      compare_outputs_run (fun _ => some c1) (fun _ => some c2)) := by
  have h : compare_outputs_run (fun _ => some c1) (fun _ => some c2) =
      some (spec_equal c1 c2) := compare_outputs_loop_const c1 c2 4 0
  refine ⟨h, ?_, ?_⟩
  · simp [compare_outputs, h, spec_equal]
  · intro n retry
    rw [h]
    exact compare_outputs_loop_const c1 c2 n retry

/-- The comparator of the parallel-only binary on the example of the specification (equal)
and on a candidate output that lacks the last line of the reference output (different). -/
theorem compare_outputs_eq_spec_witness :
    compare_outputs_run (fun _ => some "1 2 3\n".toList)
      (fun _ => some "1 2 3  \r\n\n\n".toList) = some true ∧
    compare_outputs_run (fun _ => some "5\n6\n".toList) (fun _ => some "5\n".toList) =
      some false ∧
    spec_equal "5\n6\n".toList "5\n".toList = false :=
  ⟨(compare_outputs_eq_spec "1 2 3\n".toList "1 2 3  \r\n\n\n".toList).1.trans (by decide),
    (compare_outputs_eq_spec "5\n6\n".toList "5\n".toList).1.trans (by decide),
    by decide⟩

end CodeChecker
